import Mathlib

/-!
Verification of the extraction core of `imovirtual_scraper.py`.

The development shallowly embeds the pure extraction logic of the scraper:
the structured-data (JSON-LD) merger `_merge_realestate` / `parse_json_ld`,
the tiered label/value finder `find_label_value`, the per-document parser
`parse_listing`, and the batch image-slot padding performed in `run`.

External library boundaries are abstracted as data, mirroring the spec's
"parsed-markup-tree-or-equivalent" core input:
* `BeautifulSoup(html)` is replaced by an explicit tree (`Node`/`NodeList`);
* `json.loads` on each `<script type="application/ld+json">` block is
  replaced by the document-ordered list of decode results
  (`List (Option JVal)`), `none` standing for a decode failure.

Python semantics that the source relies on are modelled explicitly:
truthiness (`pyTruthy`), `x or y` (`pyOrJ`), `str()` (`pyStr`),
`str.strip` (`pyStrip`), `dict.setdefault` (`setdef` / `pySetdefault`),
and the fact that `.strip()` on a non-string raises (`Except` result of
`parse_listing`).
-/

set_option maxRecDepth 4000

namespace Scraper

mutual

/-- JSON values, as produced by `json.loads`.  Arrays and objects are given
by the mutually inductive `JArr`/`JObj` so that all functions below are
structurally recursive (and hence kernel-evaluable).  JSON numbers are
modelled as integers (no claim depends on non-integral numbers).  Python
dicts from `json.loads` have no duplicate keys; lookups take the first
occurrence. -/
inductive JVal where
  | null : JVal
  | bool : Bool → JVal
  | num : Int → JVal
  | str : String → JVal
  | arr : JArr → JVal
  | obj : JObj → JVal

/-- JSON array spine. -/
inductive JArr where
  | nil : JArr
  | cons : JVal → JArr → JArr

/-- JSON object spine (ordered key/value pairs). -/
inductive JObj where
  | nil : JObj
  | cons : String → JVal → JObj → JObj

end

end Scraper

mutual

/-- Decidable equality for `JVal`. -/
def Scraper.JVal.beq : Scraper.JVal → Scraper.JVal → Bool
  | .null, .null => true
  | .bool a, .bool b => a == b
  | .num a, .num b => a == b
  | .str a, .str b => a == b
  | .arr a, .arr b => Scraper.JArr.beq a b
  | .obj a, .obj b => Scraper.JObj.beq a b
  | _, _ => false

/-- Decidable equality for `JArr`. -/
def Scraper.JArr.beq : Scraper.JArr → Scraper.JArr → Bool
  | .nil, .nil => true
  | .cons a as, .cons b bs => Scraper.JVal.beq a b && Scraper.JArr.beq as bs
  | _, _ => false

/-- Decidable equality for `JObj`. -/
def Scraper.JObj.beq : Scraper.JObj → Scraper.JObj → Bool
  | .nil, .nil => true
  | .cons k v r, .cons k' v' r' =>
      k == k' && Scraper.JVal.beq v v' && Scraper.JObj.beq r r'
  | _, _ => false

end

namespace Scraper

mutual

theorem JVal.beqIffEq_jval : ∀ a b : JVal, JVal.beq a b = true ↔ a = b
  | .null, b => by cases b <;> simp [JVal.beq]
  | .bool a, b => by cases b <;> simp [JVal.beq]
  | .num a, b => by cases b <;> simp [JVal.beq]
  | .str a, b => by cases b <;> simp [JVal.beq]
  | .arr a, b => by
      cases b <;> simp [JVal.beq]
      exact JArr.beqIffEq_jarr a _
  | .obj a, b => by
      cases b <;> simp [JVal.beq]
      exact JObj.beqIffEq_jobj a _

theorem JArr.beqIffEq_jarr : ∀ a b : JArr, JArr.beq a b = true ↔ a = b
  | .nil, b => by cases b <;> simp [JArr.beq]
  | .cons x xs, b => by
      cases b <;> simp [JArr.beq]
      rw [JVal.beqIffEq_jval x _, JArr.beqIffEq_jarr xs _]

theorem JObj.beqIffEq_jobj : ∀ a b : JObj, JObj.beq a b = true ↔ a = b
  | .nil, b => by cases b <;> simp [JObj.beq]
  | .cons k v r, b => by
      cases b <;> simp [JObj.beq]
      rw [JVal.beqIffEq_jval v _, JObj.beqIffEq_jobj r _]
      tauto

end

instance : DecidableEq JVal := fun a b =>
  decidable_of_iff (JVal.beq a b = true) (JVal.beqIffEq_jval a b)

instance : DecidableEq JArr := fun a b =>
  decidable_of_iff (JArr.beq a b = true) (JArr.beqIffEq_jarr a b)

instance : DecidableEq JObj := fun a b =>
  decidable_of_iff (JObj.beq a b = true) (JObj.beqIffEq_jobj a b)

/-- Build a `JArr` from a list (notation helper for examples). -/
def jarr : List JVal → JArr
  | [] => .nil
  | v :: vs => .cons v (jarr vs)

/-- Build a `JObj` from a list of pairs (notation helper for examples). -/
def jobj : List (String × JVal) → JObj
  | [] => .nil
  | (k, v) :: kvs => .cons k v (jobj kvs)

/-- `obj.get(k)`: `some v` when key `k` is present (first occurrence),
`none` when absent. -/
def jGet : JObj → String → Option JVal
  | .nil, _ => none
  | .cons k' v rest, k => if k' = k then some v else jGet rest k

/-- `obj.get(k)` as the Python value it evaluates to (`None` when the key
is absent). -/
def pyGet (o : JObj) (k : String) : JVal := (jGet o k).getD .null

/-- Python truthiness of a JSON-decoded value: `None`, `False`, `0`, `""`,
`[]` and `{}` are falsy. -/
def pyTruthy : JVal → Bool
  | .null => false
  | .bool b => b
  | .num n => n != 0
  | .str s => s != ""
  | .arr a => a != .nil
  | .obj o => o != .nil

/-- Python `a or b` on JSON-decoded values. -/
def pyOrJ (a b : JVal) : JVal := if pyTruthy a then a else b

end Scraper

mutual

/-- Python `repr()` of a JSON-decoded value (string quoting is
approximate; only scalar branches are exercised by the claims). -/
def Scraper.pyRepr : Scraper.JVal → String
  | .null => "None"
  | .bool b => if b then "True" else "False"
  | .num n => toString n
  | .str s => "'" ++ s ++ "'"
  | .arr a => "[" ++ Scraper.pyReprArr a ++ "]"
  | .obj o => "\x7b" ++ Scraper.pyReprObj o ++ "\x7d"

/-- Comma-separated `repr`s of array elements. -/
def Scraper.pyReprArr : Scraper.JArr → String
  | .nil => ""
  | .cons v .nil => Scraper.pyRepr v
  | .cons v rest => Scraper.pyRepr v ++ ", " ++ Scraper.pyReprArr rest

/-- Comma-separated `repr`s of object entries. -/
def Scraper.pyReprObj : Scraper.JObj → String
  | .nil => ""
  | .cons k v .nil => "'" ++ k ++ "': " ++ Scraper.pyRepr v
  | .cons k v rest =>
      "'" ++ k ++ "': " ++ Scraper.pyRepr v ++ ", " ++ Scraper.pyReprObj rest

end

namespace Scraper

/-- Python `str()` of a JSON-decoded value. -/
def pyStr : JVal → String
  | .str s => s
  | v => pyRepr v

/-- The partial field set built by `_merge_realestate` (the Python dict
`data`).  `none` models key absence; note that `some .null` is a *present*
key holding Python `None` (which `dict.setdefault` does produce). -/
structure Meta where
  title : Option JVal := none
  description : Option JVal := none
  price : Option JVal := none
  price_str : Option String := none
  location : Option String := none
  bedrooms : Option String := none
deriving DecidableEq

/-- The empty metadata dict (`data = {}` at the start of `parse_json_ld`). -/
def Meta.empty : Meta := {}

/-- `dict.setdefault k v` on one field: stores `v` only when the key is
absent (a stored Python `None` still counts as present). -/
def setdef {α : Type} (o : Option α) (v : α) : Option α :=
  match o with
  | none => some v
  | some x => some x

/-- Python character set for `str.strip()` / regex `\s` (ASCII whitespace
plus the no-break space, the only non-ASCII whitespace the scraper can
meet in its label texts). -/
def isPyWs (c : Char) : Bool :=
  c = ' ' || c = '\t' || c = '\n' || c = '\x0d' || c = '\x0b' || c = '\x0c' ||
  c = '\xa0'

/-- Strip characters satisfying `p` from both ends of a char list. -/
def stripEndsL (p : Char → Bool) (l : List Char) : List Char :=
  ((l.dropWhile p).reverse.dropWhile p).reverse

/-- Python `s.strip()`. -/
def pyStrip (s : String) : String := String.mk (stripEndsL isPyWs s.data)

/-- Python `s.strip(chars)` for an explicit character set. -/
def pyStripChars (chars : String) (s : String) : String :=
  String.mk (stripEndsL (fun c => chars.data.contains c) s.data)

/-- Case folding used to model `re.I` on the scraper's label alphabet:
ASCII letters plus the Latin-1 uppercase range (covers `Á`, `É`, …). -/
def foldCase (c : Char) : Char :=
  if 'A' ≤ c ∧ c ≤ 'Z' then Char.ofNat (c.toNat + 32)
  else if 0xC0 ≤ c.toNat ∧ c.toNat ≤ 0xDE ∧ c.toNat ≠ 0xD7 then
    Char.ofNat (c.toNat + 32)
  else c

/-- One alternative of the label regex
`^\s*(label)\s*:?$` (with `re.I`): optional leading whitespace, the label
case-insensitively, optional whitespace, an optional colon, end of text. -/
def matchOne (label : String) (s : String) : Bool :=
  let cs := s.data.dropWhile isPyWs
  let lb := label.data
  (cs.take lb.length).map foldCase = lb.map foldCase &&
    (let rest := (cs.drop lb.length).dropWhile isPyWs
     rest = [] || rest = [':'])

/-- `label_pattern.match(s)`: the alternation over all labels. -/
def labelMatch (labels : List String) (s : String) : Bool :=
  labels.any (fun l => matchOne l s)

/-- The non-recursive tail of `_merge_realestate`: everything after the
`@graph` loop, operating on the object's own fields.

```
offer = obj.get("offers") or {}
address = obj.get("address") or {}
dst.setdefault("title", obj.get("name"))
dst.setdefault("description", obj.get("description"))
if isinstance(offer, dict):
    price = offer.get("price") or offer.get("lowPrice")
    dst.setdefault("price", price)
    currency = offer.get("priceCurrency")
    if price and currency:
        dst["price_str"] = f"{price} {currency}"
if isinstance(address, dict):
    loc = " ".join([str(address.get("addressLocality") or ""),
                    str(address.get("addressRegion") or ""),
                    str(address.get("addressCountry") or "")]).strip()
    if loc:
        dst.setdefault("location", loc)
rooms = obj.get("numberOfRooms") or obj.get("numberOfBedrooms")
if rooms:
    dst.setdefault("bedrooms", str(rooms))
``` -/
def mergeOwn (dst : Meta) (o : JObj) : Meta :=
  let offer := pyOrJ (pyGet o "offers") (.obj .nil)
  let address := pyOrJ (pyGet o "address") (.obj .nil)
  let dst := { dst with title := setdef dst.title (pyGet o "name") }
  let dst := { dst with description := setdef dst.description (pyGet o "description") }
  let dst :=
    match offer with
    | .obj ofs =>
        let price := pyOrJ (pyGet ofs "price") (pyGet ofs "lowPrice")
        let dst := { dst with price := setdef dst.price price }
        let currency := pyGet ofs "priceCurrency"
        if pyTruthy price && pyTruthy currency then
          { dst with price_str := some (pyStr price ++ " " ++ pyStr currency) }
        else dst
    | _ => dst
  let dst :=
    match address with
    | .obj ads =>
        let loc := pyStrip (pyStr (pyOrJ (pyGet ads "addressLocality") (.str "")) ++ " " ++
                            pyStr (pyOrJ (pyGet ads "addressRegion") (.str "")) ++ " " ++
                            pyStr (pyOrJ (pyGet ads "addressCountry") (.str "")))
        if loc ≠ "" then { dst with location := setdef dst.location loc } else dst
    | _ => dst
  let rooms := pyOrJ (pyGet o "numberOfRooms") (pyGet o "numberOfBedrooms")
  if pyTruthy rooms then { dst with bedrooms := setdef dst.bedrooms (pyStr rooms) }
  else dst

end Scraper

mutual

/-- `_merge_realestate(dst, obj)`: non-dicts are ignored; for a dict, the
`@graph` list (when present and a list) is merged first, then the object's
own fields. -/
def Scraper.mergeRE (dst : Scraper.Meta) : Scraper.JVal → Scraper.Meta
  | .obj kvs => Scraper.mergeOwn (Scraper.mergeGraphScan dst kvs) kvs
  | _ => dst

/-- `if "@graph" in obj and isinstance(obj["@graph"], list): for g in ...`:
scan for the `@graph` key; when its value is a list, merge each element. -/
def Scraper.mergeGraphScan (dst : Scraper.Meta) : Scraper.JObj → Scraper.Meta
  | .nil => dst
  | .cons k v rest =>
      if k = "@graph" then
        match v with
        | .arr gs => Scraper.mergeArr dst gs
        | _ => dst
      else Scraper.mergeGraphScan dst rest

/-- Merge every element of a JSON list in order (used for `@graph` and for
a top-level JSON-LD array). -/
def Scraper.mergeArr (dst : Scraper.Meta) : Scraper.JArr → Scraper.Meta
  | .nil => dst
  | .cons g gs => Scraper.mergeArr (Scraper.mergeRE dst g) gs

end

namespace Scraper

/-- `parse_json_ld(soup)`.  Locating the
`<script type="application/ld+json">` nodes and JSON-decoding their text
(`tag.string or "{}"` fed to `json.loads`) is the stdlib boundary; it is
abstracted as the document-ordered list of decode results, `none` standing
for a block whose text failed to decode (`except Exception: continue`).
A decoded list is merged element by element; any other decoded value is
merged as a single object. -/
def parse_json_ld (blocks : List (Option JVal)) : Meta :=
  blocks.foldl
    (fun dst b =>
      match b with
      | none => dst
      | some (.arr xs) => mergeArr dst xs
      | some v => mergeRE dst v)
    Meta.empty

mutual

/-- A node of the parsed markup tree (the spec's
"parsed-markup-tree-or-equivalent" core input): a text node or an element
with tag, attributes and children.  Found tags are truthy in Python, so
boolean tests on find results reduce to presence. -/
inductive Node where
  | text : String → Node
  | elem : String → List (String × String) → NodeList → Node

/-- Sibling spine of the tree. -/
inductive NodeList where
  | nil : NodeList
  | cons : Node → NodeList → NodeList

end

/-- Build a `NodeList` from a list (notation helper for examples). -/
def nlist : List Node → NodeList
  | [] => .nil
  | n :: ns => .cons n (nlist ns)

end Scraper

mutual

/-- Decidable equality for `Node`. -/
def Scraper.Node.beq : Scraper.Node → Scraper.Node → Bool
  | .text s, .text t => s == t
  | .elem t1 a1 c1, .elem t2 a2 c2 =>
      t1 == t2 && decide (a1 = a2) && Scraper.NodeList.beq c1 c2
  | _, _ => false

/-- Decidable equality for `NodeList`. -/
def Scraper.NodeList.beq : Scraper.NodeList → Scraper.NodeList → Bool
  | .nil, .nil => true
  | .cons n ns, .cons m ms => Scraper.Node.beq n m && Scraper.NodeList.beq ns ms
  | _, _ => false

end

namespace Scraper

mutual

theorem Node.beqIffEq_node : ∀ a b : Node, Node.beq a b = true ↔ a = b
  | .text s, b => by cases b <;> simp [Node.beq]
  | .elem t1 a1 c1, b => by
      cases b <;> simp [Node.beq]
      rw [NodeList.beqIffEq_nodelist c1 _]
      tauto

theorem NodeList.beqIffEq_nodelist : ∀ a b : NodeList, NodeList.beq a b = true ↔ a = b
  | .nil, b => by cases b <;> simp [NodeList.beq]
  | .cons n ns, b => by
      cases b <;> simp [NodeList.beq]
      rw [Node.beqIffEq_node n _, NodeList.beqIffEq_nodelist ns _]

end

instance : DecidableEq Node := fun a b =>
  decidable_of_iff (Node.beq a b = true) (Node.beqIffEq_node a b)

instance : DecidableEq NodeList := fun a b =>
  decidable_of_iff (NodeList.beq a b = true) (NodeList.beqIffEq_nodelist a b)

/-- The tag of an element node. -/
def Node.tag : Node → Option String
  | .text _ => none
  | .elem t _ _ => some t

/-- Whether a node is an element with the given tag. -/
def isTag (n : Node) (t : String) : Bool := n.tag = some t

/-- Whether a node is an element (bs4 `Tag`, as opposed to a string). -/
def Node.isElem : Node → Bool
  | .elem _ _ _ => true
  | .text _ => false

/-- `tag.get(attr)`: attribute lookup. -/
def Node.attr : Node → String → Option String
  | .text _, _ => none
  | .elem _ attrs _, k => (attrs.lookup k)

end Scraper

mutual

/-- All element nodes of a subtree, in document (preorder) order,
including the root when it is an element — bs4's `descendants`
restricted to tags. -/
def Scraper.elemsN : Scraper.Node → List Scraper.Node
  | .text _ => []
  | .elem t a cs => .elem t a cs :: Scraper.elemsNL cs

/-- All element nodes under a sibling list, in document order.  Applied to
the document roots this is the scan order of `soup.find_all`. -/
def Scraper.elemsNL : Scraper.NodeList → List Scraper.Node
  | .nil => []
  | .cons n rest => Scraper.elemsN n ++ Scraper.elemsNL rest

end

mutual

/-- The raw text segments of a subtree, in document order (bs4
`self.strings` before stripping). -/
def Scraper.piecesN : Scraper.Node → List String
  | .text s => [s]
  | .elem _ _ cs => Scraper.piecesNL cs

/-- Raw text segments under a sibling list. -/
def Scraper.piecesNL : Scraper.NodeList → List String
  | .nil => []
  | .cons n rest => Scraper.piecesN n ++ Scraper.piecesNL rest

end

namespace Scraper

/-- bs4 `stripped_strings`: each segment stripped, empties dropped. -/
def strippedPieces (n : Node) : List String :=
  ((piecesN n).map pyStrip).filter (fun s => s ≠ "")

/-- Python `sep.join(xs)`. -/
def pyJoin (sep : String) : List String → String
  | [] => ""
  | [x] => x
  | x :: xs => x ++ sep ++ pyJoin sep xs

/-- `tag.get_text(strip=True)` (empty separator). -/
def getTextStrip (n : Node) : String := pyJoin "" (strippedPieces n)

/-- `tag.get_text(" ", strip=True)`. -/
def getTextSep (n : Node) : String := pyJoin " " (strippedPieces n)

/-- bs4 `tag.string`: descends through unique children; `some` exactly
when the node carries a single (possibly nested) string. -/
def nodeString : Node → Option String
  | .text s => some s
  | .elem _ _ (.cons c .nil) => nodeString c
  | .elem _ _ _ => none

/-- `text_or_none(el)` from the scraper. -/
def text_or_none (el : Option Node) : Option String :=
  el.map getTextStrip

/-- First element satisfying a predicate in a sibling spine (used for
`find_next_sibling()`, which skips string siblings). -/
def nlFind : NodeList → (Node → Bool) → Option Node
  | .nil, _ => none
  | .cons n rest, p => if p n then some n else nlFind rest p

/-- Tier 1 condition on a `dt` node:
`dt.string and label_pattern.match(dt.get_text(strip=True))`
(`dt.string` is falsy when absent or the empty string); `pat` is the
compiled label pattern the tiers close over. -/
def dtCond (pat : String → Bool) (n : Node) : Bool :=
  (match nodeString n with
   | some s => s ≠ ""
   | none => false) && pat (getTextStrip n)

/-- Tier 1 of `find_label_value`, scanning the document-ordered element
list: for each `dt` passing `dtCond`, return the text of the nearest
following `dd` (bs4 `find_next`); a matching `dt` with no following `dd`
is skipped. -/
def tier1 (pat : String → Bool) : List Node → Option String
  | [] => none
  | n :: rest =>
      if isTag n "dt" && dtCond pat n then
        match rest.find? (fun m => isTag m "dd") with
        | some dd => some (getTextSep dd)
        | none => tier1 pat rest
      else tier1 pat rest

/-- Left-to-right, non-overlapping replacement on char lists; the `Nat`
argument is fuel, instantiated with the list length (enough because each
step consumes at least one character when the pattern is non-empty). -/
def replaceL (pat rep : List Char) : Nat → List Char → List Char
  | _, [] => []
  | 0, s => s
  | Nat.succ fuel, c :: cs =>
      if pat.isPrefixOf (c :: cs) then
        rep ++ replaceL pat rep fuel ((c :: cs).drop pat.length)
      else c :: replaceL pat rep fuel cs

/-- Python `s.replace(pat, rep)` (with an empty pattern and empty
replacement, as the only way the scraper could call it with an empty
pattern, the string is unchanged). -/
def pyReplace (s pat rep : String) : String :=
  if pat = "" then s
  else String.mk (replaceL pat.data rep.data s.data.length s.data)

/-- Tier 2 body for one `li` node:
`strong = li.find(["strong","span"])`, match its text against the label
pattern, then strip the label occurrence(s) and separators from the item's
full text; an empty remainder does not count as a match. -/
def liVal (pat : String → Bool) (li : Node) : Option String :=
  match li with
  | .text _ => none
  | .elem _ _ cs =>
      match (elemsNL cs).find? (fun m => isTag m "strong" || isTag m "span") with
      | some strong =>
          if pat (getTextStrip strong) then
            let txt := getTextSep li
            let lab := getTextStrip strong
            let val := pyStripChars " :\xa0-" (pyReplace txt lab "")
            if val ≠ "" then some val else none
          else none
      | none => none

/-- Tier 2 of `find_label_value`: first `li` (document order) whose
emphasised child matches and leaves a non-empty value. -/
def tier2 (pat : String → Bool) (doc : NodeList) : Option String :=
  ((elemsNL doc).filter (fun n => isTag n "li")).findSome? (liVal pat)

/-- Tier 3 of `find_label_value`: walk elements in document order; for a
`div`/`span` whose (non-empty) text matches, take its next sibling
element's text when that text is non-empty; otherwise keep scanning. -/
def tier3 (pat : String → Bool) : NodeList → Option String
  | .nil => none
  | .cons (.text _) rest => tier3 pat rest
  | .cons (.elem t a cs) rest =>
      let n : Node := .elem t a cs
      let here : Option String :=
        if (t = "div" || t = "span") && getTextStrip n ≠ "" &&
            pat (getTextStrip n) then
          match nlFind rest Node.isElem with
          | some sib =>
              if getTextStrip sib ≠ "" then some (getTextSep sib) else none
          | none => none
        else none
      match here with
      | some v => some v
      | none =>
          match tier3 pat cs with
          | some v => some v
          | none => tier3 pat rest

/-- `find_label_value(soup, labels)`: the three tiers in order, first
success (including an empty tier-1 value) winning. -/
def find_label_value (doc : NodeList) (labels : List String) : Option String :=
  match tier1 (labelMatch labels) (elemsNL doc) with
  | some v => some v
  | none =>
      match tier2 (labelMatch labels) doc with
      | some v => some v
      | none => tier3 (labelMatch labels) doc

/-- Decidable equality of `Except` results, for evaluating the parser on
concrete inputs. -/
instance {ε α : Type} [DecidableEq ε] [DecidableEq α] :
    DecidableEq (Except ε α) := fun a b =>
  match a, b with
  | .error e, .error e' =>
      if h : e = e' then .isTrue (by rw [h]) else .isFalse (by simp [h])
  | .ok v, .ok v' =>
      if h : v = v' then .isTrue (by rw [h]) else .isFalse (by simp [h])
  | .error _, .ok _ => .isFalse (by simp)
  | .ok _, .error _ => .isFalse (by simp)

/-- `s.startswith(p)` (also used for Lean-side key tests). -/
def strStartsWith (s pre : String) : Bool := pre.data.isPrefixOf s.data

/-- Case-insensitive substring test, modelling how bs4 applies the
compiled pattern `re.compile("Preço", re.I)` to an attribute value
(`pattern.search`). -/
def containsCI (s pat : String) : Bool :=
  (s.data.map foldCase).tails.any (fun t => (pat.data.map foldCase).isPrefixOf t)

/-- An attribute value that is present and non-empty (Python-truthy). -/
def truthyAttr (o : Option String) : Option String :=
  match o with
  | some s => if s = "" then none else some s
  | none => none

/-- `img.get("src") or img.get("data-src") or img.get("data-lazy")`
followed by the `if not src: continue` guard: the first present,
non-empty attribute among the three, if any. -/
def imgSrc (img : Node) : Option String :=
  (truthyAttr (img.attr "src")).orElse fun _ =>
    (truthyAttr (img.attr "data-src")).orElse fun _ =>
      truthyAttr (img.attr "data-lazy")

/-- The image-collection loop of `parse_listing`:

```
for img in soup.find_all("img"):
    src = img.get("src") or img.get("data-src") or img.get("data-lazy")
    if not src:
        continue
    if src.startswith("//"):
        src = "https:" + src
    if src.startswith("http"):
        images.append(src)
    if len(images) >= max_images:
        break
```

Note the cap test runs after a node is processed (and is skipped by the
`continue`), so it cannot fire before the first node carrying a source
value has been handled. -/
def collectAux (m : Nat) : List Node → List String → List String
  | [], acc => acc.reverse
  | img :: rest, acc =>
      match imgSrc img with
      | none => collectAux m rest acc
      | some src =>
          let src := if strStartsWith src "//" then "https:" ++ src else src
          let acc := if strStartsWith src "http" then src :: acc else acc
          if acc.length ≥ m then acc.reverse else collectAux m rest acc

/-- Collected image URLs for one document. -/
def collectImages (imgs : List Node) (m : Nat) : List String :=
  collectAux m imgs []

/-- Stable insertion for descending-by-length sort: the inserted element
goes after every strictly longer element and before ties. -/
def insertDesc (x : String) : List String → List String
  | [] => [x]
  | y :: ys => if y.length > x.length then y :: insertDesc x ys else x :: y :: ys

/-- Python `paragraphs.sort(key=len, reverse=True)`: a stable sort by
descending length. -/
def sortDescLen : List String → List String
  | [] => []
  | x :: xs => insertDesc x (sortDescLen xs)

/-- The paragraph texts of a document, in document order. -/
def paragraphTexts (doc : NodeList) : List String :=
  ((elemsNL doc).filter (fun n => isTag n "p")).map getTextSep

/-- `paragraphs[0] if paragraphs else ""` after the descending stable
sort: the description fallback. -/
def descFallback (doc : NodeList) : String :=
  (sortDescLen (paragraphTexts doc)).headD ""

/-- `(v or "").strip()` on a Python value: empty string for a falsy
value, `.strip()` for a truthy string, and an `AttributeError` for a
truthy non-string. -/
def stripOr (v : JVal) : Except String String :=
  if pyTruthy v then
    match v with
    | .str s => Except.ok (pyStrip s)
    | _ => Except.error "AttributeError: object has no attribute strip"
  else Except.ok ""

/-- `(x or "").strip()` (and `(str(x) if x else "").strip()`) on an
optional string. -/
def strOptRec (o : Option String) : String :=
  match o with
  | some s => if s ≠ "" then pyStrip s else ""
  | none => ""

/-- `f"image{i}"`. -/
def imgKey (i : Nat) : String := "image" ++ toString i

/-- The `image1..imageK` entries appended to the record, one per
collected URL. -/
def imageEntries (imgs : List String) : List (String × String) :=
  imgs.enum.map (fun p => (imgKey (p.1 + 1), p.2))

/-- `parse_listing(html, url, max_images)`.  The parsed tree stands for
`BeautifulSoup(html, "lxml")` and `blocks` for the JSON-decode results of
its `ld+json` script blocks in document order (see `parse_json_ld`).  The
result is `Except`: building the record applies `.strip()` to the
structured title/description, which raises in Python when the structured
value is truthy but not a string. -/
def parse_listing (doc : NodeList) (blocks : List (Option JVal)) (url : String)
    (max_images : Nat) : Except String (List (String × String)) :=
  let meta := parse_json_ld blocks
  let titleV : JVal :=
    let mt := meta.title.getD .null
    if pyTruthy mt then mt
    else
      match text_or_none ((elemsNL doc).find? (fun n => isTag n "h1")) with
      | some s => .str s
      | none => .null
  let price : JVal := meta.price.getD .null
  let price_str : String :=
    let ps := meta.price_str.getD ""
    if ps ≠ "" then ps
    else
      let priceEl := (elemsNL doc).find? (fun n =>
        (isTag n "strong" || isTag n "span") &&
          (match n.attr "aria-label" with
           | some v => containsCI v "Preço"
           | none => false))
      let fromPrice := if pyTruthy price then pyStr price else ""
      match text_or_none priceEl with
      | some s => if s ≠ "" then s else fromPrice
      | none => fromPrice
  let location : String :=
    let l0 := meta.location.getD ""
    if l0 ≠ "" then l0
    else
      let breadcrumb := (elemsNL doc).find? (fun n =>
        isTag n "nav" && n.attr "aria-label" = some "breadcrumb")
      (text_or_none breadcrumb).getD ""
  let typology := find_label_value doc ["Tipologia"]
  let bedrooms : Option String :=
    let mb := meta.bedrooms.getD ""
    if mb ≠ "" then some mb
    else find_label_value doc ["Quartos", "Nº de quartos", "Número de quartos"]
  let bathrooms := find_label_value doc ["Casas de banho", "WCs"]
  let area := find_label_value doc
    ["Área bruta", "Área útil", "Área", "Área (m²)", "Área bruta (m²)"]
  let descV : JVal := meta.description.getD .null
  let images := collectImages ((elemsNL doc).filter (fun n => isTag n "img")) max_images
  do
    let t ← stripOr titleV
    let d ← stripOr (if pyTruthy descV then descV else .str (descFallback doc))
    Except.ok
      ([("url", url), ("title", t), ("price", pyStrip price_str),
        ("location", pyStrip location), ("area", strOptRec area),
        ("typology", strOptRec typology), ("bedrooms", strOptRec bedrooms),
        ("bathrooms", strOptRec bathrooms), ("description", d)] ++
        imageEntries images)

/-- Number of keys of a record starting with `"image"` (the per-record
image count computed by `run`). -/
def imageKeyCount (r : List (String × String)) : Nat :=
  (r.filter (fun kv => strStartsWith kv.1 "image")).length

/-- `max(len([k for k in r if k.startswith("image")]) for r in rows)`
(for a non-empty batch; `run` returns early on an empty one). -/
def maxImgs (rows : List (List (String × String))) : Nat :=
  rows.foldl (fun a r => max a (imageKeyCount r)) 0

/-- `dict.setdefault(k, v)` on an insertion-ordered record: appends the
key at the end when absent. -/
def pySetdefault (r : List (String × String)) (k v : String) :
    List (String × String) :=
  if (r.lookup k).isSome then r else r ++ [(k, v)]

/-- `for i in range(1, max_imgs + 1): r.setdefault(f"image{i}", "")`. -/
def padRow (m : Nat) (r : List (String × String)) : List (String × String) :=
  (List.range m).foldl (fun r i => pySetdefault r (imgKey (i + 1)) "") r

/-- The batch padding step of `run`: pad every record to the maximum
image count observed across the batch. -/
def padRows (rows : List (List (String × String))) :
    List (List (String × String)) :=
  rows.map (padRow (maxImgs rows))

/-! ### First-wins behaviour of the structured-data merge -/

/-- The five `setdefault`-guarded fields are preserved from `a` to `b`
whenever already present in `a` (`price_str` is deliberately excluded:
the source assigns it directly). -/
def presFields (a b : Meta) : Prop :=
  (a.title.isSome → b.title = a.title) ∧
  (a.description.isSome → b.description = a.description) ∧
  (a.price.isSome → b.price = a.price) ∧
  (a.location.isSome → b.location = a.location) ∧
  (a.bedrooms.isSome → b.bedrooms = a.bedrooms)

theorem presFields_refl (a : Meta) : presFields a a :=
  ⟨fun _ => rfl, fun _ => rfl, fun _ => rfl, fun _ => rfl, fun _ => rfl⟩

theorem presFields_trans {a b c : Meta} (h1 : presFields a b)
    (h2 : presFields b c) : presFields a c := by
  obtain ⟨t1, d1, p1, l1, b1⟩ := h1
  obtain ⟨t2, d2, p2, l2, b2⟩ := h2
  refine ⟨fun h => ?_, fun h => ?_, fun h => ?_, fun h => ?_, fun h => ?_⟩
  · rw [t2 (by rw [t1 h]; exact h), t1 h]
  · rw [d2 (by rw [d1 h]; exact h), d1 h]
  · rw [p2 (by rw [p1 h]; exact h), p1 h]
  · rw [l2 (by rw [l1 h]; exact h), l1 h]
  · rw [b2 (by rw [b1 h]; exact h), b1 h]

theorem setdef_of_isSome {α : Type} {o : Option α} (v : α) (h : o.isSome) :
    setdef o v = o := by
  cases o with
  | none => simp at h
  | some x => rfl

theorem mergeOwn_pres (dst : Meta) (o : JObj) : presFields dst (mergeOwn dst o) := by
  unfold mergeOwn
  refine ⟨fun h => ?_, fun h => ?_, fun h => ?_, fun h => ?_, fun h => ?_⟩ <;>
    simp only <;>
    (repeat' split) <;>
    simp [setdef_of_isSome _ h]

theorem mergeOwn_title (dst : Meta) (o : JObj) :
    (mergeOwn dst o).title = setdef dst.title (pyGet o "name") := by
  unfold mergeOwn
  simp only
  repeat' split
  all_goals rfl

theorem mergeOwn_description (dst : Meta) (o : JObj) :
    (mergeOwn dst o).description = setdef dst.description (pyGet o "description") := by
  unfold mergeOwn
  simp only
  repeat' split
  all_goals rfl

/-- `pyOrJ (.obj o) (.obj .nil) = .obj o`: when the `offers`/`address`
value is an object, the `or {}` guard is the identity. -/
theorem pyOrJ_obj_nil (o : JObj) : pyOrJ (.obj o) (.obj .nil) = .obj o := by
  unfold pyOrJ
  split
  · rfl
  · simp only [pyTruthy, bne_iff_ne, ne_eq, Decidable.not_not] at *
    rename_i h
    rw [h]

theorem mergeOwn_price (dst : Meta) (o : JObj) (ofs : JObj)
    (hof : jGet o "offers" = some (.obj ofs)) :
    (mergeOwn dst o).price =
      setdef dst.price (pyOrJ (pyGet ofs "price") (pyGet ofs "lowPrice")) := by
  unfold mergeOwn
  simp only [pyGet, hof, Option.getD_some, pyOrJ_obj_nil]
  repeat' split
  all_goals rfl

theorem mergeOwn_price_str (dst : Meta) (o : JObj) (ofs : JObj)
    (hof : jGet o "offers" = some (.obj ofs))
    (hp : pyTruthy (pyOrJ (pyGet ofs "price") (pyGet ofs "lowPrice")))
    (hc : pyTruthy (pyGet ofs "priceCurrency")) :
    (mergeOwn dst o).price_str =
      some (pyStr (pyOrJ (pyGet ofs "price") (pyGet ofs "lowPrice")) ++ " " ++
        pyStr (pyGet ofs "priceCurrency")) := by
  unfold mergeOwn
  simp only [pyGet] at hp hc ⊢
  simp only [hof, Option.getD_some, pyOrJ_obj_nil, hp, hc, Bool.and_self, if_true]
  repeat' split
  all_goals rfl

/-- The location string composed from an `address` object:
`" ".join([...]).strip()`. -/
def addrLoc (ads : JObj) : String :=
  pyStrip (pyStr (pyOrJ (pyGet ads "addressLocality") (.str "")) ++ " " ++
           pyStr (pyOrJ (pyGet ads "addressRegion") (.str "")) ++ " " ++
           pyStr (pyOrJ (pyGet ads "addressCountry") (.str "")))

theorem mergeOwn_location (dst : Meta) (o : JObj) (ads : JObj)
    (had : jGet o "address" = some (.obj ads)) :
    (mergeOwn dst o).location =
      (if addrLoc ads = "" then dst.location
       else setdef dst.location (addrLoc ads)) := by
  unfold mergeOwn addrLoc
  simp only [pyGet, had, Option.getD_some, pyOrJ_obj_nil]
  by_cases h : pyStrip (pyStr (pyOrJ ((jGet ads "addressLocality").getD JVal.null) (JVal.str "")) ++ " " ++
           pyStr (pyOrJ ((jGet ads "addressRegion").getD JVal.null) (JVal.str "")) ++ " " ++
           pyStr (pyOrJ ((jGet ads "addressCountry").getD JVal.null) (JVal.str ""))) = "" <;>
    simp only [h, if_true, if_false, ne_eq, not_true_eq_false, not_false_eq_true,
      if_neg, if_pos] <;>
    (repeat' split) <;>
    rfl

theorem mergeGraphScan_cons (dst : Meta) (k : String) (v : JVal) (rest : JObj) :
    mergeGraphScan dst (.cons k v rest) =
      if k = "@graph" then
        (match v with
         | .arr gs => mergeArr dst gs
         | _ => dst)
      else mergeGraphScan dst rest := by
  cases v <;> rw [mergeGraphScan] <;> intro gs h <;> exact absurd h (by simp)

/-- When the object has no `@graph` key, the graph scan is the identity. -/
theorem mergeGraphScan_none : ∀ (o : JObj) (dst : Meta),
    jGet o "@graph" = none → mergeGraphScan dst o = dst
  | .nil, _, _ => rfl
  | .cons k v rest, dst, h => by
      unfold jGet at h
      split at h
      · exact absurd h (by simp)
      · rename_i hk
        rw [mergeGraphScan_cons, if_neg hk]
        exact mergeGraphScan_none rest dst h

theorem mergeRE_eq (dst : Meta) (v : JVal) :
    mergeRE dst v =
      match v with
      | .obj kvs => mergeOwn (mergeGraphScan dst kvs) kvs
      | _ => dst := by
  cases v <;> rw [mergeRE] <;> intro kvs h <;> exact absurd h (by simp)

theorem mergeRE_obj (dst : Meta) (kvs : JObj) :
    mergeRE dst (.obj kvs) = mergeOwn (mergeGraphScan dst kvs) kvs := by
  rw [mergeRE_eq]

theorem mergeArr_nil (dst : Meta) : mergeArr dst .nil = dst := by
  rw [mergeArr]

theorem mergeArr_cons (dst : Meta) (g : JVal) (gs : JArr) :
    mergeArr dst (.cons g gs) = mergeArr (mergeRE dst g) gs := by
  rw [mergeArr]

end Scraper

mutual

/-- Merging any structured object never overwrites an already-present
`setdefault`-guarded field. -/
theorem Scraper.mergeRE_pres : ∀ (v : Scraper.JVal) (dst : Scraper.Meta),
    Scraper.presFields dst (Scraper.mergeRE dst v)
  | .obj kvs, dst => by
      rw [Scraper.mergeRE_obj]
      exact Scraper.presFields_trans (Scraper.mergeGraphScan_pres kvs dst)
        (Scraper.mergeOwn_pres _ kvs)
  | .null, dst => by rw [Scraper.mergeRE_eq]; exact Scraper.presFields_refl dst
  | .bool _, dst => by rw [Scraper.mergeRE_eq]; exact Scraper.presFields_refl dst
  | .num _, dst => by rw [Scraper.mergeRE_eq]; exact Scraper.presFields_refl dst
  | .str _, dst => by rw [Scraper.mergeRE_eq]; exact Scraper.presFields_refl dst
  | .arr _, dst => by rw [Scraper.mergeRE_eq]; exact Scraper.presFields_refl dst

/-- The `@graph` scan never overwrites an already-present field. -/
theorem Scraper.mergeGraphScan_pres : ∀ (o : Scraper.JObj) (dst : Scraper.Meta),
    Scraper.presFields dst (Scraper.mergeGraphScan dst o)
  | .nil, dst => Scraper.presFields_refl dst
  | .cons k v rest, dst => by
      rw [Scraper.mergeGraphScan_cons]
      split
      · match v with
        | .arr gs => exact Scraper.mergeArr_pres gs dst
        | .null | .bool _ | .num _ | .str _ | .obj _ =>
            exact Scraper.presFields_refl dst
      · exact Scraper.mergeGraphScan_pres rest dst

/-- Merging a list of objects never overwrites an already-present field. -/
theorem Scraper.mergeArr_pres : ∀ (a : Scraper.JArr) (dst : Scraper.Meta),
    Scraper.presFields dst (Scraper.mergeArr dst a)
  | .nil, dst => by rw [Scraper.mergeArr_nil]; exact Scraper.presFields_refl dst
  | .cons g gs, dst => by
      rw [Scraper.mergeArr_cons]
      exact Scraper.presFields_trans (Scraper.mergeRE_pres g dst)
        (Scraper.mergeArr_pres gs (Scraper.mergeRE dst g))

end

namespace Scraper

/-- When the `price and currency` guard is false, the direct assignment
to `price_str` does not happen. -/
theorem mergeOwn_price_str_not (dst : Meta) (o : JObj) (ofs : JObj)
    (hof : jGet o "offers" = some (.obj ofs))
    (hg : (pyTruthy (pyOrJ (pyGet ofs "price") (pyGet ofs "lowPrice")) &&
           pyTruthy (pyGet ofs "priceCurrency")) = false) :
    (mergeOwn dst o).price_str = dst.price_str := by
  unfold mergeOwn
  simp only [pyGet] at hg ⊢
  simp only [hof, Option.getD_some, pyOrJ_obj_nil, hg, if_false,
    Bool.false_eq_true]
  repeat' split
  all_goals rfl

/-- The `price_str` last-wins lemma at the object level: an object whose
`offers` sub-object carries a truthy price and currency overwrites
`price_str` regardless of its previous value. -/
theorem mergeRE_price_str_set (dst : Meta) (kvs ofs : JObj)
    (hof : jGet kvs "offers" = some (.obj ofs))
    (hp : pyTruthy (pyOrJ (pyGet ofs "price") (pyGet ofs "lowPrice")))
    (hc : pyTruthy (pyGet ofs "priceCurrency")) :
    (mergeRE dst (.obj kvs)).price_str =
      some (pyStr (pyOrJ (pyGet ofs "price") (pyGet ofs "lowPrice")) ++ " " ++
        pyStr (pyGet ofs "priceCurrency")) := by
  rw [mergeRE_obj]
  exact mergeOwn_price_str _ kvs ofs hof hp hc

/-- The two-block example from the claim: first `@graph`-free object with
a priced offer, second with a name and a different priced offer. -/
def c1blocks : List (Option JVal) :=
  [some (.obj (jobj [("offers",
      .obj (jobj [("price", .str "1"), ("priceCurrency", .str "EUR")]))])),
   some (.obj (jobj [("name", .str "B"), ("offers",
      .obj (jobj [("price", .str "2"), ("priceCurrency", .str "USD")]))]))]

/-- C1, counterexample.  The claim's first-wins rule fails on the code for
two of the listed fields: `price_str` is assigned directly (not via
`setdefault`), so the *second* block's "2 USD" overwrites the first
block's "1 EUR"; and `title` is claimed by the first block even though
that block supplies no name (`setdefault` stores Python `None`), so the
second block's title "B" is not the final value, contradicting "the field
ends up holding the value supplied by the first object that successfully
supplies it". -/
theorem claim_C1_counterexample :
    (parse_json_ld c1blocks).price_str = some "2 USD" ∧
    (parse_json_ld c1blocks).title = some JVal.null := by
  constructor <;> decide

/-- C1, amended.  For title, description, price, location and bedrooms
(the `setdefault`-guarded fields) an already-present field is never
overwritten by a later block or object — though title/description/price
are claimed by the first processed object even when it supplies no value,
blocking later values.  `price_str`, by contrast, is assigned directly:
every object whose offers carry a truthy price and currency overwrites
it, so the last such object wins.  Merging two blocks titled "A" then "B"
still yields "A". -/
theorem claim_C1_amended :
    (∀ (dst : Meta) (v : JVal), presFields dst (mergeRE dst v)) ∧
    (∀ (dst : Meta) (kvs ofs : JObj),
      jGet kvs "offers" = some (.obj ofs) →
      pyTruthy (pyOrJ (pyGet ofs "price") (pyGet ofs "lowPrice")) →
      pyTruthy (pyGet ofs "priceCurrency") →
      (mergeRE dst (.obj kvs)).price_str =
        some (pyStr (pyOrJ (pyGet ofs "price") (pyGet ofs "lowPrice")) ++ " " ++
          pyStr (pyGet ofs "priceCurrency"))) ∧
    (parse_json_ld [some (.obj (jobj [("name", .str "A")])),
                    some (.obj (jobj [("name", .str "B")]))]).title
      = some (.str "A") := by
  refine ⟨fun dst v => mergeRE_pres v dst,
          fun dst kvs ofs hof hp hc => mergeRE_price_str_set dst kvs ofs hof hp hc,
          by decide⟩

/-- C1, witness: the amended theorem applied at concrete inputs — a
pre-set title survives a later object carrying title "B", and the
`price_str` overwrite happens for the second block of `c1blocks`. -/
theorem claim_C1_witness :
    (mergeRE { title := some (.str "A") } (.obj (jobj [("name", .str "B")]))).title
      = some (.str "A") ∧
    (mergeRE Meta.empty (.obj (jobj [("name", .str "B"), ("offers",
      .obj (jobj [("price", .str "2"), ("priceCurrency", .str "USD")]))]))).price_str
      = some "2 USD" := by
  constructor
  · have h := (claim_C1_amended.1 { title := some (.str "A") }
      (.obj (jobj [("name", .str "B")]))).1 (by decide)
    exact h.trans (by decide)
  · have h := claim_C1_amended.2.1 Meta.empty
      (jobj [("name", .str "B"), ("offers",
        .obj (jobj [("price", .str "2"), ("priceCurrency", .str "USD")]))])
      (jobj [("price", .str "2"), ("priceCurrency", .str "USD")])
      (by decide) (by decide) (by decide)
    exact h.trans (by decide)

/-- C6.  For an object with an `offers` dict (and no `@graph`, merging
into an empty field set as the claim's single-object scenario implies):
the merged `price` is `offers.price` when that is truthy (the claim's
"present", via Python `or`) and `offers.lowPrice` otherwise; `price_str`
is composed as `"<price> <currency>"` exactly when the chosen price and
the currency are both truthy. -/
theorem claim_C6 : ∀ (kvs ofs : JObj),
    jGet kvs "offers" = some (.obj ofs) →
    jGet kvs "@graph" = none →
    (mergeRE Meta.empty (.obj kvs)).price =
      some (if pyTruthy (pyGet ofs "price") then pyGet ofs "price"
            else pyGet ofs "lowPrice") ∧
    (mergeRE Meta.empty (.obj kvs)).price_str =
      (if pyTruthy (pyOrJ (pyGet ofs "price") (pyGet ofs "lowPrice")) &&
          pyTruthy (pyGet ofs "priceCurrency") then
        some (pyStr (pyOrJ (pyGet ofs "price") (pyGet ofs "lowPrice")) ++ " " ++
          pyStr (pyGet ofs "priceCurrency"))
      else none) := by
  intro kvs ofs hof hg
  constructor
  · rw [mergeRE_obj, mergeGraphScan_none kvs Meta.empty hg,
      mergeOwn_price Meta.empty kvs ofs hof]
    rfl
  · rw [mergeRE_obj, mergeGraphScan_none kvs Meta.empty hg]
    by_cases h : (pyTruthy (pyOrJ (pyGet ofs "price") (pyGet ofs "lowPrice")) &&
          pyTruthy (pyGet ofs "priceCurrency")) = true
    · rw [if_pos h]
      exact mergeOwn_price_str Meta.empty kvs ofs hof
        (by
          rcases Bool.and_eq_true _ _ |>.mp h with ⟨h1, _⟩
          exact h1)
        (by
          rcases Bool.and_eq_true _ _ |>.mp h with ⟨_, h2⟩
          exact h2)
    · rw [if_neg h]
      exact mergeOwn_price_str_not Meta.empty kvs ofs hof
        (Bool.not_eq_true _ |>.mp h)

/-- C6, witness: `offers.price = 250000` is preferred over
`offers.lowPrice = 200000`, and with currency EUR the formatted price is
"250000 EUR". -/
theorem claim_C6_witness :
    (mergeRE Meta.empty (.obj (jobj [("offers", .obj (jobj
        [("price", .num 250000), ("lowPrice", .num 200000),
         ("priceCurrency", .str "EUR")]))]))).price = some (.num 250000) ∧
    (mergeRE Meta.empty (.obj (jobj [("offers", .obj (jobj
        [("price", .num 250000), ("lowPrice", .num 200000),
         ("priceCurrency", .str "EUR")]))]))).price_str = some "250000 EUR" := by
  have h := claim_C6 (jobj [("offers", .obj (jobj
        [("price", .num 250000), ("lowPrice", .num 200000),
         ("priceCurrency", .str "EUR")]))])
      (jobj [("price", .num 250000), ("lowPrice", .num 200000),
         ("priceCurrency", .str "EUR")]) (by decide) (by decide)
  exact ⟨h.1.trans (by decide), h.2.trans (by decide)⟩

/-- C7, counterexample.  With locality "Lisboa", no region and country
"Portugal", `" ".join` keeps the separator around the empty middle
component and `.strip()` only trims the ends, so the composed location is
"Lisboa  Portugal" with two internal spaces — not the claimed
"Lisboa Portugal" with exactly one. -/
theorem claim_C7_counterexample :
    (mergeRE Meta.empty (.obj (jobj [("address", .obj (jobj
        [("addressLocality", .str "Lisboa"),
         ("addressCountry", .str "Portugal")]))]))).location
      = some "Lisboa  Portugal" ∧
    "Lisboa  Portugal" ≠ "Lisboa Portugal" := by
  constructor <;> decide

/-- C7, amended.  `location` is composed by joining the three address
components (falsy ones becoming empty strings) with single separator
spaces and trimming only the ends — so a missing middle component leaves
a double internal space (`addrLoc`).  It is set only when the
composition is non-empty, and an already-set location is never
overwritten. -/
theorem claim_C7_amended : ∀ (kvs ads : JObj),
    jGet kvs "address" = some (.obj ads) →
    jGet kvs "@graph" = none →
    ((mergeRE Meta.empty (.obj kvs)).location =
      if addrLoc ads = "" then none else some (addrLoc ads)) ∧
    (∀ (dst : Meta) (v : JVal) (x : String), dst.location = some x →
      (mergeRE dst v).location = some x) := by
  intro kvs ads had hg
  constructor
  · rw [mergeRE_obj, mergeGraphScan_none kvs Meta.empty hg,
      mergeOwn_location Meta.empty kvs ads had]
    by_cases h : addrLoc ads = "" <;> simp [h, setdef, Meta.empty]
  · intro dst v x hx
    have h := (mergeRE_pres v dst).2.2.2.1 (by rw [hx]; rfl)
    rw [h, hx]

/-! ### Image collection -/

/-- The per-node processed source URL, written from the claim's wording:
the first populated value among `src`, `data-src`, `data-lazy`
(`imgSrc`), a protocol-relative value rewritten to https, and a value
kept only when it then starts with "http". -/
def keptSrc (img : Node) : Option String :=
  (imgSrc img).bind (fun s =>
    let s' := if strStartsWith s "//" then "https:" ++ s else s
    if strStartsWith s' "http" then some s' else none)

/-- While the cap has not been reached, the collection loop is exactly
"filter-map the nodes through `keptSrc`, take up to the remaining
room". -/
theorem collectAux_spec : ∀ (imgs : List Node) (m : Nat) (acc : List String),
    acc.length < m →
    collectAux m imgs acc =
      acc.reverse ++ (imgs.filterMap keptSrc).take (m - acc.length)
  | [], m, acc, _ => by simp [collectAux]
  | img :: rest, m, acc, hlt => by
      unfold collectAux
      cases hs : imgSrc img with
      | none =>
          have hk : keptSrc img = none := by simp [keptSrc, hs]
          rw [List.filterMap_cons, hk]
          exact collectAux_spec rest m acc hlt
      | some src =>
          have hk : keptSrc img =
              (let s' := if strStartsWith src "//" then "https:" ++ src else src
               if strStartsWith s' "http" then some s' else none) := by
            simp [keptSrc, hs]
          by_cases hh : strStartsWith
              (if strStartsWith src "//" then "https:" ++ src else src) "http" = true
          · simp only [hh, if_true] at hk
            simp only [hh, if_true]
            rw [List.filterMap_cons, hk]
            by_cases hge : ((if strStartsWith src "//" then "https:" ++ src else src)
                :: acc).length ≥ m
            · rw [if_pos hge]
              have hm : m - acc.length = 1 := by
                simp only [List.length_cons] at hge
                omega
              rw [hm]
              simp [List.take_succ_cons]
            · rw [if_neg hge]
              have hlt2 : ((if strStartsWith src "//" then "https:" ++ src else src)
                  :: acc).length < m := by omega
              rw [collectAux_spec rest m _ hlt2]
              have hm : m - acc.length = (m - (acc.length + 1)) + 1 := by
                simp only [List.length_cons] at hlt2
                omega
              rw [hm]
              simp [List.take_succ_cons]
          · simp only [Bool.not_eq_true] at hh
            simp only [hh, if_false, Bool.false_eq_true]
            rw [List.filterMap_cons, hk]
            simp only [hh, if_false, Bool.false_eq_true]
            rw [if_neg (by omega)]
            exact collectAux_spec rest m acc hlt

/-- For a positive cap the collected images are the valid processed
sources of the nodes, in document order, truncated at the cap. -/
theorem collectImages_take (imgs : List Node) (m : Nat) (h : 1 ≤ m) :
    collectImages imgs m = (imgs.filterMap keptSrc).take m := by
  unfold collectImages
  rw [collectAux_spec imgs m [] (by simpa using h)]
  simp

/-- With a cap of zero the loop still processes nodes until the first one
bearing a non-empty source value, and collects it when it is valid —
because the cap test runs only after a node has been handled. -/
theorem collectImages_zero : ∀ (imgs : List Node),
    collectImages imgs 0 =
      ((imgs.find? (fun i => (imgSrc i).isSome)).bind keptSrc).toList
  | [] => rfl
  | img :: rest => by
      unfold collectImages collectAux
      cases hs : imgSrc img with
      | none =>
          have : (fun i => (imgSrc i).isSome) img = false := by simp [hs]
          rw [List.find?_cons_of_neg _ (by simp [hs])]
          exact collectImages_zero rest
      | some src =>
          rw [List.find?_cons_of_pos _ (by simp [hs])]
          by_cases hh : strStartsWith
              (if strStartsWith src "//" then "https:" ++ src else src) "http" = true
          · simp [keptSrc, hs, hh]
          · simp only [Bool.not_eq_true] at hh
            simp [keptSrc, hs, hh]

/-- The one-image document used by the C3 counterexample. -/
def imgNode : Node := .elem "img" [("src", "https://a/x.jpg")] .nil

/-- C3, counterexample.  With `max_images = 0` and a single valid image
node, the loop appends the image and only then tests the cap, so one URL
is collected (and `parse_listing` emits an `image1` key) — contradicting
"the output never contains more than max_images image URLs (in
particular none when max_images = 0)". -/
theorem claim_C3_counterexample :
    collectImages [imgNode] 0 = ["https://a/x.jpg"] ∧
    (parse_listing (nlist [imgNode]) [] "u" 0).toOption.bind
      (fun r => r.lookup "image1") = some "https://a/x.jpg" := by
  constructor <;> decide

/-- C3, amended.  For `max_images ≥ 1` the collected URLs are exactly: the
image nodes in document order, each contributing its first populated
source attribute among `src`/`data-src`/`data-lazy`, protocol-relative
values rewritten to https, values kept only when they then start with
"http" (no deduplication), truncated at the cap — so never more than
`max_images`.  For `max_images = 0` the scan stops after the first node
bearing a populated source value, which is still collected when valid, so
up to one URL can be returned. -/
theorem claim_C3_amended :
    (∀ (imgs : List Node) (m : Nat), 1 ≤ m →
      collectImages imgs m = (imgs.filterMap keptSrc).take m) ∧
    (∀ imgs : List Node, collectImages imgs 0 =
      ((imgs.find? (fun i => (imgSrc i).isSome)).bind keptSrc).toList) :=
  ⟨collectImages_take, collectImages_zero⟩

/-- The five-image-node example from the spec: four valid sources (one
protocol-relative, one lazy-loaded, one repeated) and one bare relative
path. -/
def exImgs : List Node :=
  [.elem "img" [("src", "//cdn.example/x.jpg")] .nil,
   .elem "img" [("src", "images/x.jpg")] .nil,
   .elem "img" [("data-src", "https://a/1.jpg")] .nil,
   .elem "img" [("src", "https://a/1.jpg")] .nil,
   .elem "img" [("src", "https://a/2.jpg")] .nil]

/-- C3, witness: the amended characterisation applied at the concrete
example — `max_images = 3` returns exactly three URLs in document order,
the protocol-relative one rewritten, the relative one discarded, and the
duplicate kept. -/
theorem claim_C3_amended_witness :
    collectImages exImgs 3 =
      ["https://cdn.example/x.jpg", "https://a/1.jpg", "https://a/1.jpg"] := by
  have h := claim_C3_amended.1 exImgs 3 (by decide)
  exact h.trans (by decide)

/-! ### Record schema and batch padding -/

/-- Inversion for a successful `Except` bind. -/
theorem except_bind_ok {α β : Type} {x : Except String α}
    {f : α → Except String β} {b : β} (h : (x >>= f) = Except.ok b) :
    ∃ a, x = Except.ok a ∧ f a = Except.ok b := by
  cases x with
  | error e => simp [Bind.bind, Except.bind] at h
  | ok a =>
      refine ⟨a, rfl, ?_⟩
      simpa [Bind.bind, Except.bind] using h

/-- The nine scalar keys of every record, in insertion order. -/
def baseKeys : List String :=
  ["url", "title", "price", "location", "area", "typology", "bedrooms",
   "bathrooms", "description"]

/-- The image entries contribute the keys `image1..imageK`. -/
theorem imageEntries_keys (l : List String) :
    (imageEntries l).map Prod.fst =
      (List.range l.length).map (fun i => imgKey (i + 1)) := by
  unfold imageEntries
  rw [List.map_map, ← List.enum_map_fst l, List.map_map]
  rfl

/-- The key list of every successfully built record: the nine scalar keys
followed by `image1..imageK`, `K` the number of collected images. -/
theorem parse_listing_keys (doc : NodeList) (blocks : List (Option JVal))
    (url : String) (m : Nat) (rec : List (String × String))
    (h : parse_listing doc blocks url m = .ok rec) :
    rec.map Prod.fst = baseKeys ++
      (List.range (collectImages ((elemsNL doc).filter (fun n => isTag n "img")) m).length).map
        (fun i => imgKey (i + 1)) := by
  unfold parse_listing at h
  rcases except_bind_ok h with ⟨t, _, h2⟩
  rcases except_bind_ok h2 with ⟨d, _, h3⟩
  simp only [Except.ok.injEq] at h3
  rw [← h3]
  simp only [List.map_append, imageEntries_keys]
  rfl

/-- Record lookups survive `setdefault` (values never change once the key
is present; the record is only appended to). -/
theorem lookup_append_some {r s : List (String × String)} {k : String}
    {x : String} (h : r.lookup k = some x) : (r ++ s).lookup k = some x := by
  induction r with
  | nil => simp [List.lookup] at h
  | cons kv r ih =>
      rw [List.cons_append]
      cases kv with
      | mk k1 v1 =>
          cases hk : (k == k1) with
          | true =>
              simp only [List.lookup, hk] at h ⊢
              exact h
          | false =>
              simp only [List.lookup, hk] at h ⊢
              exact ih h

/-- Lookup passes over a prefix that does not contain the key. -/
theorem lookup_append_none {r s : List (String × String)} {k : String}
    (h : r.lookup k = none) : (r ++ s).lookup k = s.lookup k := by
  induction r with
  | nil => rfl
  | cons kv r ih =>
      rw [List.cons_append]
      cases kv with
      | mk k1 v1 =>
          cases hk : (k == k1) with
          | true =>
              simp only [List.lookup, hk] at h
              cases h
          | false =>
              simp only [List.lookup, hk] at h ⊢
              exact ih h

theorem pySetdefault_preserve {r : List (String × String)} {k' x : String}
    (k v : String) (h : r.lookup k' = some x) :
    (pySetdefault r k v).lookup k' = some x := by
  unfold pySetdefault
  split
  · exact h
  · exact lookup_append_some h

theorem pySetdefault_self_isSome (r : List (String × String)) (k v : String) :
    ((pySetdefault r k v).lookup k).isSome := by
  unfold pySetdefault
  split
  · assumption
  · rename_i hn
    rw [lookup_append_none (Option.not_isSome_iff_eq_none.mp hn)]
    simp [List.lookup]

/-- A `setdefault` either leaves a lookup unchanged or introduces the
default value. -/
theorem pySetdefault_val (r : List (String × String)) (k v k' : String) :
    (pySetdefault r k v).lookup k' = r.lookup k' ∨
    (pySetdefault r k v).lookup k' = some v := by
  unfold pySetdefault
  split
  · exact Or.inl rfl
  · rename_i hn
    cases hk : r.lookup k' with
    | some x => exact Or.inl ((lookup_append_some hk).trans hk.symm |>.trans hk)
    | none =>
        rw [lookup_append_none hk]
        unfold List.lookup
        split
        · exact Or.inr rfl
        · exact Or.inl (by simp [List.lookup, hk])

/-- Folding image-slot `setdefault`s only ever preserves a value or sets
the empty string. -/
theorem foldl_setdefault_val : ∀ (ks : List Nat) (r : List (String × String))
    (k : String),
    (ks.foldl (fun r i => pySetdefault r (imgKey (i + 1)) "") r).lookup k
      = r.lookup k ∨
    (ks.foldl (fun r i => pySetdefault r (imgKey (i + 1)) "") r).lookup k
      = some ""
  | [], _, _ => Or.inl rfl
  | i :: ks, r, k => by
      rw [List.foldl_cons]
      rcases foldl_setdefault_val ks (pySetdefault r (imgKey (i + 1)) "") k with
        h | h
      · rcases pySetdefault_val r (imgKey (i + 1)) "" k with h2 | h2
        · exact Or.inl (h.trans h2)
        · exact Or.inr (h.trans h2)
      · exact Or.inr h

theorem padRow_val (m : Nat) (r : List (String × String)) (k : String) :
    (padRow m r).lookup k = r.lookup k ∨ (padRow m r).lookup k = some "" :=
  foldl_setdefault_val (List.range m) r k

/-- After padding to `m` slots, every key `image1..imageM` is present. -/
theorem padRow_isSome : ∀ (m : Nat) (r : List (String × String)) (i : Nat),
    i < m → ((padRow m r).lookup (imgKey (i + 1))).isSome
  | 0, _, _, h => absurd h (by omega)
  | m + 1, r, i, h => by
      unfold padRow
      rw [List.range_succ, List.foldl_append, List.foldl_cons, List.foldl_nil]
      by_cases hi : i < m
      · have ih := padRow_isSome m r i hi
        unfold padRow at ih
        rcases hx : (List.foldl (fun r i => pySetdefault r (imgKey (i + 1)) "")
            r (List.range m)).lookup (imgKey (i + 1)) with _ | x
        · rw [hx] at ih
          simp at ih
        · exact (pySetdefault_preserve _ _ hx) ▸ (by simp)
      · have hi2 : i = m := by omega
        subst hi2
        exact pySetdefault_self_isSome _ _ _

/-- The record produced by an empty document with no structured data:
every optional field is the empty string and there are no image keys. -/
def emptyRec : List (String × String) :=
  [("url", "u"), ("title", ""), ("price", ""), ("location", ""),
   ("area", ""), ("typology", ""), ("bedrooms", ""), ("bathrooms", ""),
   ("description", "")]

/-- C2, counterexample.  A document yielding no images with
`max_images = 3` produces a record with no `image1..image3` keys at all;
batch padding pads only to the maximum image count observed in the batch
(here 0), so the keys are still absent — contradicting "always contains
… image1..imageN with N = max_images". -/
theorem claim_C2_counterexample :
    parse_listing .nil [] "u" 3 = .ok emptyRec ∧
    padRows [emptyRec] = [emptyRec] ∧
    emptyRec.lookup "image1" = none := by
  refine ⟨by decide, by decide, by decide⟩

/-- C2, amended.  Every successfully built record carries exactly the
nine scalar keys (string-valued, always present) plus `image1..imageK`
where `K` is the number of images actually collected (at most
`max_images` when `max_images ≥ 1`); the batch padding step then
guarantees `image1..imageM` in every record of a batch, with `M` the
maximum image-key count observed across the batch and previously absent
slots holding the empty string. -/
theorem claim_C2_amended :
    (∀ (doc : NodeList) (blocks : List (Option JVal)) (url : String) (m : Nat)
       (rec : List (String × String)),
      parse_listing doc blocks url m = .ok rec →
      rec.map Prod.fst = baseKeys ++
        (List.range (collectImages ((elemsNL doc).filter (fun n => isTag n "img")) m).length).map
          (fun i => imgKey (i + 1))) ∧
    (∀ (imgs : List Node) (m : Nat), 1 ≤ m →
      (collectImages imgs m).length ≤ m) ∧
    (∀ (rows : List (List (String × String))) (r : List (String × String)),
      r ∈ rows → ∀ i, i < maxImgs rows →
      ∃ v, (padRow (maxImgs rows) r).lookup (imgKey (i + 1)) = some v ∧
        (r.lookup (imgKey (i + 1)) = none → v = "")) ∧
    (∀ rows, padRows rows = rows.map (padRow (maxImgs rows))) := by
  refine ⟨parse_listing_keys, fun imgs m h => ?_, fun rows r _ i hi => ?_,
    fun _ => rfl⟩
  · rw [collectImages_take imgs m h, List.length_take]
    exact min_le_left _ _
  · rcases Option.isSome_iff_exists.mp (padRow_isSome (maxImgs rows) r i hi) with
      ⟨v, hv⟩
    refine ⟨v, hv, fun hnone => ?_⟩
    rcases padRow_val (maxImgs rows) r (imgKey (i + 1)) with h | h
    · rw [hv] at h
      rw [hnone] at h
      cases h
    · rw [hv] at h
      cases h
      rfl

/-- C2, witness: the amended theorem applied to a concrete batch — a
one-image record and an image-less record; after padding both contain
`image1`, the absent slot as the empty string; and the key list of a
concrete parse. -/
theorem claim_C2_amended_witness :
    (∃ v, (padRow (maxImgs [[("url", "u"), ("image1", "a")], [("url", "v")]])
        [("url", "v")]).lookup (imgKey 1) = some v ∧
      (([("url", "v")] : List (String × String)).lookup (imgKey 1) = none →
        v = "")) ∧
    emptyRec.map Prod.fst = baseKeys := by
  constructor
  · exact claim_C2_amended.2.2.1 [[("url", "u"), ("image1", "a")], [("url", "v")]]
      [("url", "v")] (by simp) 0 (by decide)
  · have h := claim_C2_amended.1 .nil [] "u" 3 emptyRec (by decide)
    exact h.trans (by decide)

/-- The alternation only depends on which labels are in the list: lists
with the same members compile to equivalent patterns. -/
theorem labelMatch_ext {L1 L2 : List String} (h : ∀ l, l ∈ L1 ↔ l ∈ L2) :
    labelMatch L1 = labelMatch L2 := by
  funext s
  unfold labelMatch
  cases h1 : L1.any (fun l => matchOne l s) with
  | true =>
      rcases List.any_eq_true.mp h1 with ⟨x, hx, hm⟩
      have h3 := List.any_eq_true.mpr
        (⟨x, (h x).mp hx, hm⟩ : ∃ y ∈ L2, matchOne y s = true)
      rw [h3]
  | false =>
      cases h2 : L2.any (fun l => matchOne l s) with
      | false => rfl
      | true =>
          exfalso
          rcases List.any_eq_true.mp h2 with ⟨x, hx, hm⟩
          have h3 := List.any_eq_true.mpr
            (⟨x, (h x).mpr hx, hm⟩ : ∃ y ∈ L1, matchOne y s = true)
          exact absurd (h1.symm.trans h3) (by simp)

/-- A successful tier-1 match is the overall result. -/
theorem find_of_tier1 {doc : NodeList} {labels : List String} {v : String}
    (h : tier1 (labelMatch labels) (elemsNL doc) = some v) :
    find_label_value doc labels = some v := by
  unfold find_label_value
  rw [h]

/-- A non-empty string stays non-empty under appending. -/
theorem append_ne_empty_left {x : String} (y : String) (h : x ≠ "") :
    x ++ y ≠ "" := by
  intro he
  apply h
  have hd : (x ++ y).data = [] := by rw [he]
  rw [String.data_append] at hd
  rcases List.append_eq_nil.mp hd with ⟨h1, _⟩
  cases x
  simp_all

/-- Joining a non-empty list of non-empty strings is non-empty. -/
theorem pyJoin_ne_empty (sep : String) : ∀ (l : List String), l ≠ [] →
    (∀ x ∈ l, x ≠ "") → pyJoin sep l ≠ ""
  | [], h, _ => absurd rfl h
  | [x], _, hx => by
      unfold pyJoin
      exact hx x (by simp)
  | x :: y :: r, _, hx => by
      unfold pyJoin
      exact append_ne_empty_left _
        (append_ne_empty_left _ (hx x (by simp)))

/-- Every stripped text piece is non-empty. -/
theorem mem_strippedPieces_ne {n : Node} {x : String}
    (h : x ∈ strippedPieces n) : x ≠ "" := by
  unfold strippedPieces at h
  have := (List.mem_filter.mp h).2
  simpa using this

/-- If the concatenated stripped text is non-empty, so is the
space-separated one (both come from the same piece list). -/
theorem getTextSep_ne_of_strip {n : Node} (h : getTextStrip n ≠ "") :
    getTextSep n ≠ "" := by
  have hp : strippedPieces n ≠ [] := by
    intro he
    apply h
    unfold getTextStrip
    rw [he]
    rfl
  exact pyJoin_ne_empty " " _ hp (fun x hx => mem_strippedPieces_ne hx)

/-- A successful tier-2 value is non-empty (the guard `if val:`). -/
theorem liVal_some_ne {pat : String → Bool} {li : Node} {v : String}
    (h : liVal pat li = some v) : v ≠ "" := by
  unfold liVal at h
  split at h
  · cases h
  · split at h
    · split at h
      · dsimp only at h
        split at h
        · rename_i hval
          cases h
          exact hval
        · cases h
      · cases h
    · cases h

/-- A successful tier-2 result is non-empty. -/
theorem tier2_some_ne {pat : String → Bool} {doc : NodeList} {v : String}
    (h : tier2 pat doc = some v) : v ≠ "" := by
  unfold tier2 at h
  rcases List.findSome?_eq_some_iff.mp h with ⟨_, a, _, _, ha, _⟩
  exact liVal_some_ne ha

/-- A successful tier-3 result is non-empty (the sibling-text guard). -/
theorem tier3_some_ne : ∀ (nl : NodeList) (pat : String → Bool) (v : String),
    tier3 pat nl = some v → v ≠ ""
  | .nil, pat, v, h => by
      rw [tier3] at h
      exact absurd h (by simp)
  | .cons (.text s) rest, pat, v, h =>
      tier3_some_ne rest pat v (by rwa [tier3] at h)
  | .cons (.elem t a cs) rest, pat, v, h => by
      rw [tier3] at h
      split at h
      · rename_i heq
        split at heq
        · split at heq
          · split at heq
            · rename_i hsib
              cases heq
              cases h
              exact getTextSep_ne_of_strip hsib
            · cases heq
          · cases heq
        · cases heq
      · split at h
        · rename_i heq
          cases h
          exact tier3_some_ne cs pat v heq
        · exact tier3_some_ne rest pat v h

/-- Scanning tier 1: the first `dt` that passes the condition and has a
following `dd` determines the result; earlier failing `dt`s are
skipped. -/
theorem tier1_first_hit (pat : String → Bool) :
    ∀ (pre : List Node) (dt : Node) (rest : List Node) (dd : Node),
    (∀ n ∈ pre, isTag n "dt" = true → dtCond pat n = false) →
    isTag dt "dt" = true → dtCond pat dt = true →
    rest.find? (fun m => isTag m "dd") = some dd →
    tier1 pat (pre ++ dt :: rest) = some (getTextSep dd)
  | [], dt, rest, dd, _, h2, h3, h4 => by
      simp only [List.nil_append, tier1, h2, h3, Bool.and_self, if_true, h4]
  | n :: pre, dt, rest, dd, h1, h2, h3, h4 => by
      have ih := tier1_first_hit pat pre dt rest dd
        (fun m hm => h1 m (by simp [hm])) h2 h3 h4
      rw [List.cons_append]
      cases ht : isTag n "dt" with
      | false =>
          simp only [tier1, ht, Bool.false_and, Bool.false_eq_true, if_false]
          exact ih
      | true =>
          simp only [tier1, ht, h1 n (by simp) ht, Bool.and_false,
            Bool.false_eq_true, if_false]
          exact ih

/-- The document used in C4/C5/C10 style examples is assembled with
`nlist`; `dtT2 s` is a `dt` holding a single text node. -/
def dtT (s : String) : Node := .elem "dt" [] (nlist [.text s])

/-- A `dd` holding a single text node. -/
def ddT (s : String) : Node := .elem "dd" [] (nlist [.text s])

/-- The C4 example document: an "Área útil: 80 m²" term/description pair
occurring before an "Área bruta: 100 m²" pair, plus tier-2 and tier-3
decoys that would match the same labels. -/
def exC4 : NodeList := nlist [
  .elem "dl" [] (nlist [
    dtT "Área útil", ddT "80 m²",
    dtT "Área bruta", ddT "100 m²"]),
  .elem "li" [] (nlist [
    .elem "strong" [] (nlist [.text "Área bruta:"]), .text " 999 m² "]),
  .elem "div" [] (nlist [.text "Área"]),
  .elem "span" [] (nlist [.text "777 m²"])]

/-- C4.  The finder's result only depends on the label set (any two
label lists with the same members give the same result), tiers are tried
in order with tier 1 fully scanned first, and on the example document the
earlier "Área útil" pair wins for both orderings of the label list —
despite later tier-1, tier-2 and tier-3 candidates for "Área bruta". -/
theorem claim_C4 :
    (∀ (doc : NodeList) (L1 L2 : List String), (∀ l, l ∈ L1 ↔ l ∈ L2) →
      find_label_value doc L1 = find_label_value doc L2) ∧
    find_label_value exC4 ["Área bruta", "Área útil"] = some "80 m²" ∧
    find_label_value exC4 ["Área útil", "Área bruta"] = some "80 m²" := by
  refine ⟨fun doc L1 L2 h => ?_, by decide, by decide⟩
  unfold find_label_value
  rw [labelMatch_ext h]

/-- C4, witness: the permutation-invariance applied to the two concrete
orderings of the area label list on the example document. -/
theorem claim_C4_witness :
    find_label_value exC4 ["Área bruta", "Área útil"] =
      find_label_value exC4 ["Área útil", "Área bruta"] :=
  claim_C4.1 exC4 _ _ (by intro l; constructor <;> (intro h; simp at h; rcases h with h | h <;> simp [h]))

/-- The C5 counterexample `dt`: its entire trimmed text is "Tipologia:",
but its content is not a single string (`dt.string` is `None`). -/
def exC5dt : Node :=
  .elem "dt" [] (nlist [.elem "b" [] (nlist [.text "Tipologia"]), .text ":"])

/-- The C5 counterexample document: the composite `dt` followed by a
`dd` holding "T2". -/
def exC5 : NodeList := nlist [exC5dt, ddT "T2"]

/-- C5, counterexample.  The claim quantifies over every `dt` whose
entire trimmed text matches a label, but tier 1 additionally requires
`dt.string` — a single (possibly nested) string child — to be truthy.
This `dt` has two children, so although its trimmed text "Tipologia:"
matches the label "Tipologia" and a `dd` with text "T2" follows, the
finder returns nothing at all instead of "T2". -/
theorem claim_C5_counterexample :
    getTextStrip exC5dt = "Tipologia:" ∧
    matchOne "Tipologia" "Tipologia:" = true ∧
    nodeString exC5dt = none ∧
    find_label_value exC5 ["Tipologia"] = none := by
  refine ⟨by decide, by decide, by decide, by decide⟩

/-- C5, amended.  Restricted to `dt` nodes that carry a single non-empty
string (`dt.string` truthy): the first such `dt` in document order whose
entire trimmed text matches a label — case-insensitively, tolerating an
optional trailing colon and surrounding whitespace, full-match only —
and that has any following `dd` node yields that nearest `dd`'s text as
the finder's overall result. -/
theorem claim_C5_amended :
    ∀ (doc : NodeList) (labels : List String) (pre : List Node) (dt : Node)
      (rest : List Node) (dd : Node),
    elemsNL doc = pre ++ dt :: rest →
    (∀ n ∈ pre, isTag n "dt" = true → dtCond (labelMatch labels) n = false) →
    isTag dt "dt" = true → dtCond (labelMatch labels) dt = true →
    rest.find? (fun m => isTag m "dd") = some dd →
    find_label_value doc labels = some (getTextSep dd) := by
  intro doc labels pre dt rest dd hdoc h1 h2 h3 h4
  apply find_of_tier1
  rw [hdoc]
  exact tier1_first_hit (labelMatch labels) pre dt rest dd h1 h2 h3 h4

/-- C5, witness: the amended theorem applied to a document whose `dt`
text is "tipologia:" (lower case, trailing colon) and to one whose `dt`
text is "TIPOLOGIA" (upper case), both matching label "Tipologia" and
both resolved to the following `dd`'s text. -/
theorem claim_C5_amended_witness :
    find_label_value (nlist [dtT "tipologia:", ddT "T2"]) ["Tipologia"]
      = some "T2" ∧
    find_label_value (nlist [dtT "TIPOLOGIA", ddT "T3"]) ["Tipologia"]
      = some "T3" := by
  constructor
  · have h := claim_C5_amended (nlist [dtT "tipologia:", ddT "T2"]) ["Tipologia"]
      [] (dtT "tipologia:") [ddT "T2"] (ddT "T2")
      (by decide) (by intro n hn; simp at hn) (by decide) (by decide) (by decide)
    exact h.trans (by decide)
  · have h := claim_C5_amended (nlist [dtT "TIPOLOGIA", ddT "T3"]) ["Tipologia"]
      [] (dtT "TIPOLOGIA") [ddT "T3"] (ddT "T3")
      (by decide) (by intro n hn; simp at hn) (by decide) (by decide) (by decide)
    exact h.trans (by decide)

/-- The C10 example document: a `dt` "Quartos" whose following `dd`
contains only whitespace (empty stripped text), then a tier-3 `div`/`span`
pair that would yield "3". -/
def exC10 : NodeList := nlist [
  dtT "Quartos", ddT " ",
  .elem "div" [] (nlist [.text "Quartos"]),
  .elem "span" [] (nlist [.text "3"])]

/-- The same document without the term/description pair: tier 3 now
produces the non-empty value. -/
def exC10b : NodeList := nlist [
  .elem "div" [] (nlist [.text "Quartos"]),
  .elem "span" [] (nlist [.text "3"])]

/-- C10.  A successful tier-1 match is returned as-is — even the empty
string — and short-circuits the later tiers; when tier 1 fails, any
value produced (by tier 2 or tier 3) is non-empty.  Concretely, on
`exC10` the empty-`dd` match suppresses the "3" that tier 3 yields on
`exC10b`. -/
theorem claim_C10 :
    (∀ (doc : NodeList) (labels : List String) (v : String),
      tier1 (labelMatch labels) (elemsNL doc) = some v →
      find_label_value doc labels = some v) ∧
    (∀ (doc : NodeList) (labels : List String) (v : String),
      tier1 (labelMatch labels) (elemsNL doc) = none →
      find_label_value doc labels = some v → v ≠ "") ∧
    find_label_value exC10 ["Quartos"] = some "" ∧
    find_label_value exC10b ["Quartos"] = some "3" := by
  refine ⟨fun doc labels v h => find_of_tier1 h,
          fun doc labels v h1 h2 => ?_, by decide, by decide⟩
  unfold find_label_value at h2
  rw [h1] at h2
  simp only at h2
  split at h2
  · rename_i heq
    cases h2
    exact tier2_some_ne heq
  · exact tier3_some_ne doc _ v h2

/-- C10, witness: the short-circuit conjunct applied to the concrete
document (tier 1 yields the empty string, which is the final result),
and the non-emptiness conjunct applied to `exC10b`. -/
theorem claim_C10_witness :
    find_label_value exC10 ["Quartos"] = some "" ∧ "3" ≠ "" := by
  constructor
  · exact claim_C10.1 exC10 ["Quartos"] "" (by decide)
  · exact claim_C10.2.1 exC10b ["Quartos"] "3" (by decide) (by decide)

/-- C7, witness: the amended theorem applied to the "Lisboa"/"Portugal"
address (yielding the double-space composition) and to a pre-set
location surviving a merge. -/
theorem claim_C7_amended_witness :
    (mergeRE Meta.empty (.obj (jobj [("address", .obj (jobj
        [("addressLocality", .str "Lisboa"),
         ("addressCountry", .str "Portugal")]))]))).location
      = some "Lisboa  Portugal" ∧
    (mergeRE { location := some "Porto" } (.obj (jobj
        [("address", .obj (jobj [("addressLocality", .str "Faro")]))]))).location
      = some "Porto" := by
  constructor
  · have h := (claim_C7_amended (jobj [("address", .obj (jobj
        [("addressLocality", .str "Lisboa"),
         ("addressCountry", .str "Portugal")]))])
      (jobj [("addressLocality", .str "Lisboa"),
             ("addressCountry", .str "Portugal")]) (by decide) (by decide)).1
    exact h.trans (by decide)
  · exact (claim_C7_amended (jobj [("address", .obj (jobj
        [("addressLocality", .str "Faro")]))])
      (jobj [("addressLocality", .str "Faro")]) (by decide) (by decide)).2
      { location := some "Porto" } _ "Porto" rfl


/-! ### Description fallback: longest paragraph, stable selection -/

/-- The selection the stable descending sort's head computes: the
earliest longest element ("" for an empty list). -/
def pickBest : List String → String
  | [] => ""
  | x :: xs => if (pickBest xs).length > x.length then pickBest xs else x

theorem insertDesc_headD (x : String) (l : List String) :
    (insertDesc x l).headD "" =
      if (l.headD "").length > x.length then l.headD "" else x := by
  cases l with
  | nil => simp [insertDesc]
  | cons y ys =>
      unfold insertDesc
      by_cases h : y.length > x.length <;> simp [h]

theorem sortDescLen_headD_eq_pickBest : ∀ l : List String,
    (sortDescLen l).headD "" = pickBest l
  | [] => rfl
  | x :: xs => by
      unfold sortDescLen pickBest
      rw [insertDesc_headD, sortDescLen_headD_eq_pickBest xs]

theorem pickBest_max : ∀ (l : List String) (p : String), p ∈ l →
    p.length ≤ (pickBest l).length
  | [], _, h => absurd h (by simp)
  | x :: xs, p, h => by
      unfold pickBest
      rcases List.mem_cons.mp h with h | h
      · subst h
        split <;> omega
      · have := pickBest_max xs p h
        split <;> omega

theorem pickBest_split : ∀ l : List String, l ≠ [] →
    ∃ pre post, l = pre ++ pickBest l :: post ∧
      (∀ p ∈ pre, p.length < (pickBest l).length) ∧
      (∀ p ∈ post, p.length ≤ (pickBest l).length)
  | [], h => absurd rfl h
  | x :: xs, _ => by
      unfold pickBest
      by_cases hx : xs = []
      · subst hx
        refine ⟨[], [], ?_, by simp, by simp⟩
        simp [pickBest]
      · rcases pickBest_split xs hx with ⟨pre, post, heq, hlt, hle⟩
        by_cases hgt : (pickBest xs).length > x.length
        · rw [if_pos hgt]
          refine ⟨x :: pre, post, by (conv_lhs => rw [heq]); rw [List.cons_append], ?_, hle⟩
          intro p hp
          rcases List.mem_cons.mp hp with h | h
          · subst h; omega
          · exact hlt p h
        · rw [if_neg hgt]
          refine ⟨[], xs, rfl, by simp, ?_⟩
          intro p hp
          have := pickBest_max xs p hp
          omega

/-- Head predicate: the list is empty or starts with a character not
satisfying `p` (used for "already stripped at the front/back"). -/
def frontOk (p : Char → Bool) : List Char → Prop
  | [] => True
  | c :: _ => p c = false

theorem dropWhile_frontOk (p : Char → Bool) : ∀ l : List Char,
    frontOk p (l.dropWhile p)
  | [] => trivial
  | c :: cs => by
      rw [List.dropWhile_cons]
      by_cases h : p c = true
      · rw [if_pos h]
        exact dropWhile_frontOk p cs
      · rw [if_neg h]
        simpa using h

theorem dropWhile_of_frontOk {p : Char → Bool} : ∀ {l : List Char},
    frontOk p l → l.dropWhile p = l
  | [], _ => rfl
  | c :: cs, h => by
      rw [List.dropWhile_cons, if_neg (by simp [frontOk] at h; simp [h])]

theorem frontOk_of_prefix {p : Char → Bool} {l m : List Char}
    (h : l <+: m) (hm : frontOk p m) : frontOk p l := by
  cases l with
  | nil => trivial
  | cons c cs =>
      rcases h with ⟨t, ht⟩
      subst ht
      exact hm

/-- The both-ends strip leaves a front-stripped list. -/
theorem stripEndsL_frontOk (p : Char → Bool) (l : List Char) :
    frontOk p (stripEndsL p l) := by
  have h1 : ((l.dropWhile p).reverse.dropWhile p).reverse <+:
      (l.dropWhile p).reverse.reverse :=
    List.reverse_prefix.mpr (List.dropWhile_suffix p)
  rw [List.reverse_reverse] at h1
  exact frontOk_of_prefix h1 (dropWhile_frontOk p l)

/-- The both-ends strip leaves a back-stripped list. -/
theorem stripEndsL_backOk (p : Char → Bool) (l : List Char) :
    frontOk p (stripEndsL p l).reverse := by
  unfold stripEndsL
  rw [List.reverse_reverse]
  exact dropWhile_frontOk p _

/-- A list stripped at both ends is unchanged by the strip. -/
theorem stripEndsL_of_ok {p : Char → Bool} {l : List Char}
    (hf : frontOk p l) (hb : frontOk p l.reverse) : stripEndsL p l = l := by
  unfold stripEndsL
  rw [dropWhile_of_frontOk hf, dropWhile_of_frontOk hb, List.reverse_reverse]

theorem pyStrip_data (s : String) : (pyStrip s).data = stripEndsL isPyWs s.data := rfl

theorem pyStrip_of_ok {s : String} (hf : frontOk isPyWs s.data)
    (hb : frontOk isPyWs s.data.reverse) : pyStrip s = s := by
  unfold pyStrip
  rw [stripEndsL_of_ok hf hb]

theorem pyStrip_frontOk (s : String) : frontOk isPyWs (pyStrip s).data := by
  rw [pyStrip_data]
  exact stripEndsL_frontOk _ _

theorem pyStrip_backOk (s : String) : frontOk isPyWs (pyStrip s).data.reverse := by
  rw [pyStrip_data]
  exact stripEndsL_backOk _ _

theorem frontOk_append_left {p : Char → Bool} {l1 : List Char}
    (l2 : List Char) (hne : l1 ≠ []) (h : frontOk p l1) :
    frontOk p (l1 ++ l2) := by
  cases l1 with
  | nil => exact absurd rfl hne
  | cons c cs => exact h

theorem data_ne_nil_of_ne {s : String} (h : s ≠ "") : s.data ≠ [] := by
  intro hd
  apply h
  cases s
  simp_all

/-- The space-join of non-empty, individually stripped pieces starts with
a non-whitespace character. -/
theorem pyJoin_frontOk : ∀ l : List String,
    (∀ x ∈ l, frontOk isPyWs x.data ∧ x ≠ "") →
    frontOk isPyWs (pyJoin " " l).data
  | [] , _ => trivial
  | [x], h => (h x (by simp)).1
  | x :: y :: r, h => by
      unfold pyJoin
      rw [String.data_append, String.data_append, List.append_assoc]
      exact frontOk_append_left _
        (data_ne_nil_of_ne (h x (by simp)).2) (h x (by simp)).1

/-- The space-join of non-empty, individually back-stripped pieces ends
with a non-whitespace character. -/
theorem pyJoin_backOk : ∀ l : List String,
    (∀ x ∈ l, frontOk isPyWs x.data.reverse ∧ x ≠ "") →
    frontOk isPyWs (pyJoin " " l).data.reverse
  | [], _ => trivial
  | [x], h => (h x (by simp)).1
  | x :: y :: r, h => by
      unfold pyJoin
      rw [String.data_append, String.data_append, List.reverse_append,
        List.reverse_append]
      have hjoin := pyJoin_backOk (y :: r) (fun z hz => h z (by simp [hz]))
      have hne : pyJoin " " (y :: r) ≠ "" :=
        pyJoin_ne_empty " " (y :: r) (by simp) (fun z hz => (h z (by simp [hz])).2)
      rw [← List.append_assoc]
      exact frontOk_append_left _
        (by
          intro hd
          rcases List.append_eq_nil.mp hd with ⟨hd1, _⟩
          exact absurd hd1 (by
            intro hx
            exact data_ne_nil_of_ne hne (by simpa using hx)))
        (frontOk_append_left _ (by
            intro hx
            exact data_ne_nil_of_ne hne (by simpa using hx)) hjoin)

/-- Paragraph texts (bs4 `get_text(" ", strip=True)` output) are
unchanged by a further `.strip()`. -/
theorem pyStrip_getTextSep (n : Node) : pyStrip (getTextSep n) = getTextSep n := by
  unfold getTextSep
  have hmem : ∀ x ∈ strippedPieces n,
      (frontOk isPyWs x.data ∧ x ≠ "") ∧
      (frontOk isPyWs x.data.reverse ∧ x ≠ "") := by
    intro x hx
    have hne := mem_strippedPieces_ne hx
    unfold strippedPieces at hx
    rcases List.mem_map.mp (List.mem_filter.mp hx).1 with ⟨raw, _, hraw⟩
    subst hraw
    exact ⟨⟨pyStrip_frontOk raw, hne⟩, ⟨pyStrip_backOk raw, hne⟩⟩
  exact pyStrip_of_ok
    (pyJoin_frontOk _ (fun x hx => (hmem x hx).1))
    (pyJoin_backOk _ (fun x hx => (hmem x hx).2))

/-- Every paragraph text is unchanged by a further `.strip()`. -/
theorem paragraphTexts_strip_inv {doc : NodeList} {x : String}
    (h : x ∈ paragraphTexts doc) : pyStrip x = x := by
  unfold paragraphTexts at h
  rcases List.mem_map.mp h with ⟨node, _, hnode⟩
  rw [← hnode]
  exact pyStrip_getTextSep node

/-- The description slot of a successfully built record, when the
structured description is falsy: the stripped sort-head fallback. -/
theorem parse_listing_description (doc : NodeList) (blocks : List (Option JVal))
    (url : String) (m : Nat) (rec : List (String × String))
    (hd : pyTruthy ((parse_json_ld blocks).description.getD .null) = false)
    (h : parse_listing doc blocks url m = .ok rec) :
    rec.lookup "description" = some (pyStrip (descFallback doc)) := by
  unfold parse_listing at h
  rcases except_bind_ok h with ⟨t, _, h2⟩
  rcases except_bind_ok h2 with ⟨d, hd2, h3⟩
  simp only [Except.ok.injEq] at h3
  rw [hd] at hd2
  simp only [Bool.false_eq_true, if_false] at hd2
  have hdval : d = pyStrip (descFallback doc) := by
    unfold stripOr at hd2
    by_cases hfb : descFallback doc = ""
    · rw [hfb] at hd2
      simp only [pyTruthy, bne_self_eq_false, Bool.false_eq_true, if_false] at hd2
      cases hd2
      rw [hfb]
      rfl
    · rw [if_pos (by simp [pyTruthy, hfb])] at hd2
      cases hd2
      rfl
  rw [← h3, hdval]
  exact lookup_append_some rfl

/-- C8.  When the structured description is falsy, the record's
description is: the empty string if the document has no paragraphs, and
otherwise a paragraph text of maximal length whose predecessors in
document order are all strictly shorter (the stable descending sort puts
the earliest longest paragraph first). -/
theorem claim_C8 : ∀ (doc : NodeList) (blocks : List (Option JVal))
    (url : String) (m : Nat) (rec : List (String × String)),
    pyTruthy ((parse_json_ld blocks).description.getD .null) = false →
    parse_listing doc blocks url m = .ok rec →
    (paragraphTexts doc = [] → rec.lookup "description" = some "") ∧
    (paragraphTexts doc ≠ [] → ∃ pre d post,
      paragraphTexts doc = pre ++ d :: post ∧
      rec.lookup "description" = some d ∧
      (∀ p ∈ pre, p.length < d.length) ∧
      (∀ p ∈ post, p.length ≤ d.length)) := by
  intro doc blocks url m rec hd h
  have hlook := parse_listing_description doc blocks url m rec hd h
  constructor
  · intro hp
    rw [hlook]
    unfold descFallback
    rw [hp]
    rfl
  · intro hp
    rcases pickBest_split (paragraphTexts doc) hp with ⟨pre, post, heq, hlt, hle⟩
    have hfb : descFallback doc = pickBest (paragraphTexts doc) := by
      unfold descFallback
      exact sortDescLen_headD_eq_pickBest _
    have hmem : pickBest (paragraphTexts doc) ∈ paragraphTexts doc := by
      have hmem0 : pickBest (paragraphTexts doc) ∈
          pre ++ pickBest (paragraphTexts doc) :: post := by simp
      rw [← heq] at hmem0
      exact hmem0
    have hinv : pyStrip (pickBest (paragraphTexts doc)) =
        pickBest (paragraphTexts doc) := paragraphTexts_strip_inv hmem
    refine ⟨pre, pickBest (paragraphTexts doc), post, heq, ?_, hlt, hle⟩
    rw [hlook, hfb, hinv]

/-- The 10/50/30 paragraph document from the claim. -/
def pDoc : NodeList := nlist [
  .elem "p" [] (nlist [.text (String.mk (List.replicate 10 'a'))]),
  .elem "p" [] (nlist [.text (String.mk (List.replicate 50 'b'))]),
  .elem "p" [] (nlist [.text (String.mk (List.replicate 30 'c'))])]

/-- The record `parse_listing` builds for `pDoc`. -/
def recC8 : List (String × String) :=
  [("url", "u"), ("title", ""), ("price", ""), ("location", ""),
   ("area", ""), ("typology", ""), ("bedrooms", ""), ("bathrooms", ""),
   ("description", String.mk (List.replicate 50 'b'))]

/-- C8, witness: the theorem applied to the 10/50/30 document — the
record's description is a longest paragraph preceded only by strictly
shorter ones. -/
theorem claim_C8_witness : ∃ pre d post,
    paragraphTexts pDoc = pre ++ d :: post ∧
    recC8.lookup "description" = some d ∧
    (∀ p ∈ pre, p.length < d.length) ∧
    (∀ p ∈ post, p.length ≤ d.length) :=
  (claim_C8 pDoc [] "u" 3 recC8 (by decide) (by decide)).2 (by decide)

/-! ### Error handling -/

/-- C9, counterexample.  The claim's "never raises for missing or
malformed optional data" fails: a structured block whose `name` decodes
to a (truthy) non-string — malformed optional data — reaches
`(title or "").strip()` in the record constructor, which raises
`AttributeError` in Python; the model returns the corresponding
error. -/
theorem claim_C9_counterexample :
    parse_listing .nil
      [some (.obj (jobj [("name", .obj (jobj [("a", .num 1)]))]))] "u" 3
      = .error "AttributeError: object has no attribute strip" := by
  decide

/-- A Python value `.strip()` can be applied to after an `or ""` guard:
falsy (in particular `None`, i.e. an absent `dict.get`) or a string. -/
def strOrFalsy (v : JVal) : Prop := pyTruthy v = false ∨ ∃ s, v = JVal.str s

/-- `(v or "").strip()` cannot raise on a falsy-or-string value. -/
theorem stripOr_isOk {v : JVal} (h : strOrFalsy v) : ∃ t, stripOr v = .ok t := by
  unfold stripOr
  rcases h with h | ⟨s, rfl⟩
  · rw [h]
    exact ⟨"", by simp⟩
  · by_cases hs : pyTruthy (JVal.str s) = true
    · rw [if_pos hs]
      exact ⟨pyStrip s, rfl⟩
    · rw [if_neg hs]
      exact ⟨"", rfl⟩

/-- The title value fed to `.strip()` is falsy-or-string whenever the
structured title is (the `h1` fallback is a string or `None`). -/
theorem strOrFalsy_titleV (mt : JVal) (o : Option String) (h : strOrFalsy mt) :
    strOrFalsy (if pyTruthy mt = true then mt
                else match o with
                     | some s => JVal.str s
                     | none => JVal.null) := by
  by_cases hmt : pyTruthy mt = true
  · rw [if_pos hmt]
    exact h
  · rw [if_neg hmt]
    cases o with
    | some s => exact Or.inr ⟨s, rfl⟩
    | none => exact Or.inl rfl

/-- The description value fed to `.strip()` is falsy-or-string whenever
the structured description is (the paragraph fallback is a string). -/
theorem strOrFalsy_descV (dv : JVal) (fb : String) (h : strOrFalsy dv) :
    strOrFalsy (if pyTruthy dv = true then dv else JVal.str fb) := by
  by_cases hdv : pyTruthy dv = true
  · rw [if_pos hdv]
    exact h
  · rw [if_neg hdv]
    exact Or.inr ⟨fb, rfl⟩

/-- Inversion for a failing `Except` bind. -/
theorem except_bind_error {α β : Type} {x : Except String α}
    {f : α → Except String β} {e : String} (h : (x >>= f) = Except.error e) :
    x = Except.error e ∨ ∃ a, x = Except.ok a ∧ f a = Except.error e := by
  cases x with
  | error e' =>
      simp only [Bind.bind, Except.bind, Except.error.injEq] at h
      exact Or.inl (by rw [h])
  | ok a =>
      refine Or.inr ⟨a, rfl, ?_⟩
      simpa [Bind.bind, Except.bind] using h

/-- Record construction never raises when the structured title and
description are each absent, falsy, or strings: the parser returns a
record, carrying all nine scalar keys. -/
theorem parse_listing_ok (doc : NodeList) (blocks : List (Option JVal))
    (url : String) (m : Nat)
    (hT : strOrFalsy ((parse_json_ld blocks).title.getD .null))
    (hD : strOrFalsy ((parse_json_ld blocks).description.getD .null)) :
    ∃ rec, parse_listing doc blocks url m = Except.ok rec ∧
      rec.map Prod.fst = baseKeys ++
        (List.range (collectImages ((elemsNL doc).filter (fun n => isTag n "img")) m).length).map
          (fun i => imgKey (i + 1)) := by
  cases hres : parse_listing doc blocks url m with
  | ok rec => exact ⟨rec, rfl, parse_listing_keys doc blocks url m rec hres⟩
  | error e =>
      exfalso
      unfold parse_listing at hres
      rcases except_bind_error hres with h1 | ⟨t, _, h2⟩
      · obtain ⟨t, ht⟩ := stripOr_isOk
          (strOrFalsy_titleV ((parse_json_ld blocks).title.getD .null)
            (text_or_none ((elemsNL doc).find? (fun n => isTag n "h1"))) hT)
        exact absurd (ht.symm.trans h1) (by simp)
      · rcases except_bind_error h2 with h3 | ⟨d, _, h4⟩
        · obtain ⟨d, hd⟩ := stripOr_isOk
            (strOrFalsy_descV ((parse_json_ld blocks).description.getD .null)
              (descFallback doc) hD)
          exact absurd (hd.symm.trans h3) (by simp)
        · exact absurd h4 (by simp)

/-- The three finder-backed fields of a successfully built record hold
the (stripped) finder result, hence the empty string when the finder
finds nothing. -/
theorem parse_listing_finder_fields (doc : NodeList)
    (blocks : List (Option JVal)) (url : String) (m : Nat)
    (rec : List (String × String))
    (h : parse_listing doc blocks url m = .ok rec) :
    rec.lookup "typology" =
      some (strOptRec (find_label_value doc ["Tipologia"])) ∧
    rec.lookup "bathrooms" =
      some (strOptRec (find_label_value doc ["Casas de banho", "WCs"])) ∧
    rec.lookup "area" =
      some (strOptRec (find_label_value doc
        ["Área bruta", "Área útil", "Área", "Área (m²)", "Área bruta (m²)"])) := by
  unfold parse_listing at h
  rcases except_bind_ok h with ⟨t, _, h2⟩
  rcases except_bind_ok h2 with ⟨d, _, h3⟩
  simp only [Except.ok.injEq] at h3
  rw [← h3]
  exact ⟨lookup_append_some rfl, lookup_append_some rfl, lookup_append_some rfl⟩

/-- C9, amended.  A block whose text fails to decode as JSON is skipped
silently and extraction continues with the remaining blocks, exactly as
claimed.  Missing optional data never raises: whenever the structured
title and description are each absent, falsy, or strings (in particular
whenever they are missing), the record is built successfully with the
full scalar key schema; a label/value field whose finder comes back
empty resolves to the empty string; and an empty document with no
structured data yields all nine fields as empty strings.  However the
core can raise: a structured title or description that is present and
truthy but not a string makes the record constructor fail (see the
counterexample). -/
theorem claim_C9_amended :
    (∀ (pre post : List (Option JVal)),
      parse_json_ld (pre ++ none :: post) = parse_json_ld (pre ++ post)) ∧
    (∀ (doc : NodeList) (blocks : List (Option JVal)) (url : String) (m : Nat),
      strOrFalsy ((parse_json_ld blocks).title.getD .null) →
      strOrFalsy ((parse_json_ld blocks).description.getD .null) →
      ∃ rec, parse_listing doc blocks url m = Except.ok rec ∧
        rec.map Prod.fst = baseKeys ++
          (List.range (collectImages ((elemsNL doc).filter (fun n => isTag n "img")) m).length).map
            (fun i => imgKey (i + 1))) ∧
    (∀ (doc : NodeList) (blocks : List (Option JVal)) (url : String) (m : Nat)
       (rec : List (String × String)),
      parse_listing doc blocks url m = .ok rec →
      (find_label_value doc ["Tipologia"] = none →
        rec.lookup "typology" = some "") ∧
      (find_label_value doc ["Casas de banho", "WCs"] = none →
        rec.lookup "bathrooms" = some "") ∧
      (find_label_value doc
          ["Área bruta", "Área útil", "Área", "Área (m²)", "Área bruta (m²)"] = none →
        rec.lookup "area" = some "")) ∧
    (∀ (url : String) (m : Nat),
      parse_listing .nil [] url m =
        .ok [("url", url), ("title", ""), ("price", ""), ("location", ""),
             ("area", ""), ("typology", ""), ("bedrooms", ""),
             ("bathrooms", ""), ("description", "")]) := by
  refine ⟨fun pre post => ?_, parse_listing_ok, ?_, fun url m => rfl⟩
  · unfold parse_json_ld
    rw [List.foldl_append, List.foldl_append, List.foldl_cons]
  · intro doc blocks url m rec h
    obtain ⟨ht, hb, ha⟩ := parse_listing_finder_fields doc blocks url m rec h
    refine ⟨fun hn => ?_, fun hn => ?_, fun hn => ?_⟩
    · rw [ht, hn]
      rfl
    · rw [hb, hn]
      rfl
    · rw [ha, hn]
      rfl

/-- C9, witness: the amended theorem applied at concrete inputs — a
string-titled structured block parses to a record with the full scalar
schema and no image keys, and on a document with no label matches the
typology field of the concrete record is the empty string. -/
theorem claim_C9_amended_witness :
    (∃ rec, parse_listing .nil [some (.obj (jobj [("name", .str "Casa")]))]
        "u" 3 = Except.ok rec ∧
      rec.map Prod.fst = baseKeys ++
        (List.range (collectImages ((elemsNL NodeList.nil).filter
          (fun n => isTag n "img")) 3).length).map (fun i => imgKey (i + 1))) ∧
    emptyRec.lookup "typology" = some "" := by
  constructor
  · exact claim_C9_amended.2.1 .nil [some (.obj (jobj [("name", .str "Casa")]))]
      "u" 3 (Or.inr ⟨"Casa", by decide⟩) (Or.inl (by decide))
  · exact (claim_C9_amended.2.2.1 .nil [] "u" 3 emptyRec (by decide)).1 (by decide)

end Scraper
